import Mathlib

set_option linter.unusedSectionVars false

/-!
Shallow embedding of the dynamic vector implementation in `src/vec.c`
(single translation unit, header `include/vec.h`).

Modelling conventions:
* `size_t` values are modelled as `Nat`.  All arithmetic in the C source is
  in-range except the subtraction `dst->capacity - src->len` in `vec_extend`,
  which can wrap around; there the wrap is modelled explicitly modulo `2^64`.
* An element (a fixed-size block of `elem_size` bytes, opaque to the
  container) is modelled as a value of a type parameter `α`.  Every copy the
  source performs moves whole elements, so this is faithful.
* The backing buffer `elems` is a `List α` whose length is the number of
  allocated slots (`capacity` for a well-formed container); slots at indices
  at or beyond `len` hold unspecified bytes, modelled by `default : α`.
* Allocation (`malloc` / `realloc`) may fail.  Each operation takes a flag
  `alloc : Bool`: `true` means every allocation in the call succeeds, `false`
  means the first attempted allocation fails.  No operation performs two
  allocations whose individual failure is observably different, so one flag
  per call covers all executions.
* The `VEC_DISABLE_SHRINK` compile switch is modelled by a flag
  `shrink : Bool` passed to the operations that contain the conditional
  block (`vec_remove`, `vec_pop`, `vec_truncate`); `shrink = true` is the
  default build in which the `vec_check_shrink` call is compiled in.
* A null `vec_t*` handle is modelled as `none : Option (Vec α)`; the value
  level functions below correspond to calls with a non-null handle.  The
  `elems == NULL` branch of `vec_validate_ptr` cannot fire for a modelled
  value (a `List α` always exists); it is only reachable in C for corrupted
  handles, which the claims reach through the `Option` layer.
* Writing through `memcpy`/`memmove` beyond the allocated buffer is
  undefined behavior in C; functions that can reach such a write
  (`vec_extend`) return an `Option`, with `none` denoting undefined
  behavior.  Reading `vec->len` through a null handle is likewise modelled
  as `none` at the handle layer.
-/

namespace VecSpec

/-- Magic value for vector pointer validation (VEC_MAGIC in vec.c). -/
def VEC_MAGIC : Nat := 0xF3EDB4BE

/-- Minimum capacity of the vector (vec.h). -/
def MIN_CAPACITY : Nat := 16

/-- Maximum capacity of the vector: INT_MAX (vec.h). -/
def MAX_CAPACITY : Nat := 2147483647

/-- Minimum size in bytes of elements (vec.h). -/
def MIN_DATA_SIZE : Nat := 1

/-- Maximum size in bytes of elements: INT_MAX (vec.h). -/
def MAX_DATA_SIZE : Nat := 2147483647

/-- Maximum ratio of len / capacity before growing (vec.h). -/
def GROWTH_POLICY : Nat := 1

/-- Factor by which the capacity grows (vec.h). -/
def GROWTH_FACTOR : Nat := 2

/-- Minimum ratio of capacity / len before shrinking (vec.h). -/
def SHRINK_POLICY : Nat := 4

/-- Factor by which the capacity shrinks (vec.h). -/
def SHRINK_FACTOR : Nat := 2

/-- Modulus of the C `size_t` type (64-bit platform). -/
def SIZE_T_MOD : Nat := 18446744073709551616

/-- Error enumeration `vec_err_t` from vec.h. -/
inductive VecErr where
  | OK
  | IOOB
  | NULLPTR
  | INVPTR
  | INVOP
  | NOMEM
deriving DecidableEq

/-- The `struct vec` from vec.c: magic sentinel, logical length, allocated
capacity, element byte size, and the backing storage (one list entry per
allocated slot). -/
structure Vec (α : Type) where
  magic : Nat
  len : Nat
  capacity : Nat
  elem_size : Nat
  elems : List α
deriving DecidableEq

variable {α : Type} [Inhabited α]

/-- vec_validate_ptr, value level: the handle is non-null (the null case
lives at the `Option` layer) and `elems` exists by construction, so only the
magic comparison remains. -/
def vec_validate_ptr (v : Vec α) : VecErr :=
  if v.magic ≠ VEC_MAGIC then VecErr.INVPTR else VecErr.OK

/-- vec_reallocate: on success storage is resized to `capacity` slots, the
first `min (old length) capacity` slots keep their bytes and fresh slots are
unspecified (`default`); `len` is clamped to `capacity`.  On allocation
failure (`alloc = false`) the container is unchanged. -/
def vec_reallocate (v : Vec α) (capacity : Nat) (alloc : Bool) : VecErr × Vec α :=
  if alloc = false then (VecErr.NOMEM, v)
  else
    (VecErr.OK,
      { v with
        elems := v.elems.take capacity ++ List.replicate (capacity - v.elems.length) default
        capacity := capacity
        len := if v.len > capacity then capacity else v.len })

/-- vec_check_grow: grow to `capacity * GROWTH_FACTOR` (floored at
MIN_CAPACITY) when `len ≥ capacity * GROWTH_POLICY`, refusing with INVOP
when doubling would pass MAX_CAPACITY. -/
def vec_check_grow (v : Vec α) (alloc : Bool) : VecErr × Vec α :=
  if v.len < v.capacity * GROWTH_POLICY then (VecErr.OK, v)
  else if v.capacity > MAX_CAPACITY / GROWTH_FACTOR ∨
          v.capacity * GROWTH_FACTOR > MAX_CAPACITY then (VecErr.INVOP, v)
  else
    let new_capacity := v.capacity * GROWTH_FACTOR
    vec_reallocate v (if MIN_CAPACITY > new_capacity then MIN_CAPACITY else new_capacity) alloc

/-- vec_check_shrink: shrink to `capacity / SHRINK_FACTOR` (floored at
MIN_CAPACITY) when `len < capacity / SHRINK_POLICY` and
`capacity > MIN_CAPACITY`. -/
def vec_check_shrink (v : Vec α) (alloc : Bool) : VecErr × Vec α :=
  if v.len ≥ v.capacity / SHRINK_POLICY ∨ v.capacity ≤ MIN_CAPACITY then (VecErr.OK, v)
  else
    let new_capacity := v.capacity / SHRINK_FACTOR
    vec_reallocate v (if new_capacity < MIN_CAPACITY then MIN_CAPACITY else new_capacity) alloc

/-- vec_write_idx: memcpy of one element from a variable into slot `idx`. -/
def vec_write_idx (v : Vec α) (idx : Nat) (src : α) : Vec α :=
  { v with elems := v.elems.set idx src }

/-- vec_write_var: memcpy of one element from slot `idx` into a variable. -/
def vec_write_var (v : Vec α) (idx : Nat) : α :=
  v.elems.getD idx default

/-- vec_make: creation through a handle slot (`*vec`); the outer `vec == NULL`
check is a handle-layer concern.  The slot must be empty, `elem_size` must be
in range, the capacity hint is clamped up to MIN_CAPACITY; both `malloc`
calls are covered by `alloc` (either failing yields NOMEM with the slot left
`NULL`). -/
def vec_make (slot : Option (Vec α)) (elem_size capacity : Nat) (alloc : Bool) :
    VecErr × Option (Vec α) :=
  if elem_size < MIN_DATA_SIZE ∨ elem_size > MAX_DATA_SIZE then (VecErr.INVOP, slot)
  else
    match slot with
    | some _ => (VecErr.INVOP, slot)
    | none =>
      let capacity := if capacity < MIN_CAPACITY then MIN_CAPACITY else capacity
      if alloc = false then (VecErr.NOMEM, none)
      else
        (VecErr.OK, some
          { magic := VEC_MAGIC
            len := 0
            capacity := capacity
            elem_size := elem_size
            elems := List.replicate capacity default })

/-- vec_resize: exact reallocation, rejected unless
`MIN_CAPACITY < capacity ≤ MAX_CAPACITY`. -/
def vec_resize (v : Vec α) (capacity : Nat) (alloc : Bool) : VecErr × Vec α :=
  let s := vec_validate_ptr v
  if s ≠ VecErr.OK then (s, v)
  else if capacity ≤ MIN_CAPACITY ∨ capacity > MAX_CAPACITY then (VecErr.INVOP, v)
  else vec_reallocate v capacity alloc

/-- vec_shrink_to_fit: reallocate to exactly `len` elements; INVOP when
empty, no-op when already exact. -/
def vec_shrink_to_fit (v : Vec α) (alloc : Bool) : VecErr × Vec α :=
  let s := vec_validate_ptr v
  if s ≠ VecErr.OK then (s, v)
  else if v.len = 0 then (VecErr.INVOP, v)
  else if v.len = v.capacity then (VecErr.OK, v)
  else vec_reallocate v v.len alloc

/-- vec_clear: reset `len` to 0; when capacity is above the floor a fresh
MIN_CAPACITY buffer replaces the old one (its contents unspecified). -/
def vec_clear (v : Vec α) (alloc : Bool) : VecErr × Vec α :=
  let s := vec_validate_ptr v
  if s ≠ VecErr.OK then (s, v)
  else if v.capacity ≤ MIN_CAPACITY then (VecErr.OK, { v with len := 0 })
  else if alloc = false then (VecErr.NOMEM, v)
  else
    (VecErr.OK,
      { v with
        len := 0
        capacity := MIN_CAPACITY
        elems := List.replicate MIN_CAPACITY default })

/-- The final copy step of vec_clone: memcpy of `src.len` elements from the
start of `src`'s buffer to the start of `d`'s buffer, then `len := src.len`. -/
def cloneCopy (src d : Vec α) : Vec α :=
  { d with
    elems := src.elems.take src.len ++ d.elems.drop src.len
    len := src.len }

/-- vec_clone: the `same` flag models the pointer comparison `*dst == src`
(true when the two handles alias).  When the slot is empty or too small a
new container of capacity `src.len` is requested from vec_make (which clamps
to MIN_CAPACITY) and replaces the slot's old container. -/
def vec_clone (src : Vec α) (dst : Option (Vec α)) (same alloc : Bool) :
    VecErr × Option (Vec α) :=
  let s := vec_validate_ptr src
  if s ≠ VecErr.OK then (s, dst)
  else
    match dst with
    | some d =>
      let sd := vec_validate_ptr d
      if sd ≠ VecErr.OK then (sd, dst)
      else if d.elem_size ≠ src.elem_size ∨ same then (VecErr.INVOP, dst)
      else if d.capacity < src.len then
        match vec_make none src.elem_size src.len alloc with
        | (VecErr.OK, some clone) => (VecErr.OK, some (cloneCopy src clone))
        | (e, _) => (e, dst)
      else (VecErr.OK, some (cloneCopy src d))
    | none =>
      match vec_make none src.elem_size src.len alloc with
      | (VecErr.OK, some clone) => (VecErr.OK, some (cloneCopy src clone))
      | (e, _) => (e, dst)

/-- vec_destroy through a handle slot: validate `*vec`, then vec_free sets
the slot to NULL.  The outer `vec == NULL` check is a handle-layer concern. -/
def vec_destroy (slot : Option (Vec α)) : VecErr × Option (Vec α) :=
  match slot with
  | none => (VecErr.NULLPTR, slot)
  | some v =>
    let s := vec_validate_ptr v
    if s ≠ VecErr.OK then (s, slot)
    else (VecErr.OK, none)

/-- vec_set: overwrite slot `idx`; the previous element is returned (the C
function writes it to `old` when that pointer is non-null). -/
def vec_set (v : Vec α) (idx : Nat) (src : α) : VecErr × Vec α × Option α :=
  let s := vec_validate_ptr v
  if s ≠ VecErr.OK then (s, v, none)
  else if idx ≥ v.len then (VecErr.IOOB, v, none)
  else (VecErr.OK, vec_write_idx v idx src, some (vec_write_var v idx))

/-- vec_swap: exchange the elements at `idx1` and `idx2` through a malloc'd
temporary (whose allocation is covered by `alloc`). -/
def vec_swap (v : Vec α) (idx1 idx2 : Nat) (alloc : Bool) : VecErr × Vec α :=
  let s := vec_validate_ptr v
  if s ≠ VecErr.OK then (s, v)
  else if idx1 = idx2 then (VecErr.INVOP, v)
  else if idx1 ≥ v.len ∨ idx2 ≥ v.len then (VecErr.IOOB, v)
  else if alloc = false then (VecErr.NOMEM, v)
  else
    let temp := vec_write_var v idx1
    let v1 := vec_write_idx v idx1 (v.elems.getD idx2 default)
    (VecErr.OK, vec_write_idx v1 idx2 temp)

/-- vec_insert: grow check, then memmove of `[idx, len)` one slot to the
right, `len += 1`, and the write at `idx`. -/
def vec_insert (v : Vec α) (idx : Nat) (src : α) (alloc : Bool) : VecErr × Vec α :=
  let s := vec_validate_ptr v
  if s ≠ VecErr.OK then (s, v)
  else if idx > v.len then (VecErr.IOOB, v)
  else
    match vec_check_grow v alloc with
    | (VecErr.OK, g) =>
      let shifted :=
        { g with
          elems := g.elems.take (idx + 1) ++ (g.elems.drop idx).take (g.len - idx) ++
            g.elems.drop (g.len + 1) }
      (VecErr.OK, vec_write_idx { shifted with len := g.len + 1 } idx src)
    | (e, g) => (e, g)

/-- vec_remove: copy out the removed element, memmove `[idx+1, len)` one
slot to the left (skipped for the last index), `len -= 1`, then the shrink
check when the shrink block is compiled in. -/
def vec_remove (v : Vec α) (idx : Nat) (alloc shrink : Bool) :
    VecErr × Vec α × Option α :=
  let s := vec_validate_ptr v
  if s ≠ VecErr.OK then (s, v, none)
  else if idx ≥ v.len then (VecErr.IOOB, v, none)
  else
    let removed := vec_write_var v idx
    let shifted :=
      if idx ≠ v.len - 1 then
        { v with
          elems := v.elems.take idx ++ (v.elems.drop (idx + 1)).take (v.len - idx - 1) ++
            v.elems.drop (v.len - 1) }
      else v
    let v2 := { shifted with len := v.len - 1 }
    if shrink then
      match vec_check_shrink v2 alloc with
      | (e, v3) => (e, v3, some removed)
    else (VecErr.OK, v2, some removed)

/-- vec_push: `vec_insert(vec, vec->len, src)` for a non-null handle (the
null-handle read of `vec->len` lives at the `Option` layer). -/
def vec_push (v : Vec α) (src : α) (alloc : Bool) : VecErr × Vec α :=
  vec_insert v v.len src alloc

/-- vec_pop for a non-null handle: the emptiness test runs before any
validation (which happens only inside vec_remove). -/
def vec_pop (v : Vec α) (alloc shrink : Bool) : VecErr × Vec α × Option α :=
  if v.len = 0 then (VecErr.INVOP, v, none)
  else vec_remove v (v.len - 1) alloc shrink

/-- One memcpy of `vec_fill`: `cnt` elements from the start of the buffer to
position `dst` (the source and destination ranges never overlap because
`cnt ≤ dst` at every call site). -/
def memcpy_front (l : List α) (dst cnt : Nat) : List α :=
  l.take dst ++ l.take cnt ++ l.drop (dst + cnt)

/-- The doubling-copy loop of vec_fill.  The C loop variable `offset` starts
at 1 and doubles; it is encoded as `off1 + 1` so that it is positive by
construction.  Each iteration with `2*offset < n` copies `[0, offset)` to
`[offset, 2*offset)`; the final memcpy copies the remaining `n - offset`
elements. -/
def vec_fill_loop (l : List α) (off1 n : Nat) : List α :=
  if h : 2 * (off1 + 1) < n then
    vec_fill_loop (memcpy_front l (off1 + 1) (off1 + 1)) (2 * (off1 + 1) - 1) n
  else
    memcpy_front l (off1 + 1) (n - (off1 + 1))
termination_by n - off1
decreasing_by omega

/-- vec_fill: resize when the capacity is short of `n` (through vec_resize,
with its range check), raise `len` to `n` if below, write the first element
and run the doubling-copy loop. -/
def vec_fill (v : Vec α) (src : α) (n : Nat) (alloc : Bool) : VecErr × Vec α :=
  let s := vec_validate_ptr v
  if s ≠ VecErr.OK then (s, v)
  else if n = 0 then (VecErr.OK, v)
  else
    match (if v.capacity < n then vec_resize v n alloc else (VecErr.OK, v)) with
    | (VecErr.OK, v1) =>
      let v2 := if v1.len < n then { v1 with len := n } else v1
      (VecErr.OK, { v2 with elems := vec_fill_loop (v2.elems.set 0 src) 0 n })
    | (e, v1) => (e, v1)

/-- vec_truncate: cut `len` down to `n` (no-op when `n ≥ len`), then the
shrink check when the shrink block is compiled in. -/
def vec_truncate (v : Vec α) (n : Nat) (alloc shrink : Bool) : VecErr × Vec α :=
  let s := vec_validate_ptr v
  if s ≠ VecErr.OK then (s, v)
  else if n ≥ v.len then (VecErr.OK, v)
  else
    let v1 := { v with len := n }
    if shrink then vec_check_shrink v1 alloc else (VecErr.OK, v1)

/-- vec_extend: the growth test is the C expression
`dst->capacity - src->len < dst->len` evaluated in `size_t` arithmetic, so
the subtraction wraps modulo `2^64` when `src.len > dst.capacity`.  The
final memcpy appends `src.len` elements after slot `dst.len`; when that
write would pass the end of the allocation the behavior is undefined,
modelled as `none`. -/
def vec_extend (dst src : Vec α) (same alloc : Bool) : Option (VecErr × Vec α) :=
  if same then some (VecErr.INVOP, dst)
  else
    let s1 := vec_validate_ptr dst
    if s1 ≠ VecErr.OK then some (s1, dst)
    else
      let s2 := vec_validate_ptr src
      if s2 ≠ VecErr.OK then some (s2, dst)
      else if dst.elem_size ≠ src.elem_size then some (VecErr.INVOP, dst)
      else
        match (if (SIZE_T_MOD + dst.capacity - src.len) % SIZE_T_MOD < dst.len
               then vec_resize dst (dst.len + src.len) alloc
               else (VecErr.OK, dst)) with
        | (VecErr.OK, d1) =>
          if d1.len + src.len ≤ d1.elems.length then
            some (VecErr.OK,
              { d1 with
                elems := d1.elems.take d1.len ++ src.elems.take src.len ++
                  d1.elems.drop (d1.len + src.len)
                len := d1.len + src.len })
          else none
        | (e, d1) => some (e, d1)

/-- vec_get: copy the element at `idx` out. -/
def vec_get (v : Vec α) (idx : Nat) : VecErr × Option α :=
  let s := vec_validate_ptr v
  if s ≠ VecErr.OK then (s, none)
  else if idx ≥ v.len then (VecErr.IOOB, none)
  else (VecErr.OK, some (vec_write_var v idx))

/-- vec_first: `vec_get(vec, 0, first)`. -/
def vec_first (v : Vec α) : VecErr × Option α :=
  vec_get v 0

/-- vec_last for a non-null handle: `vec_get(vec, vec->len - 1, last)`; on an
empty container the `size_t` expression `len - 1` wraps to SIZE_MAX, which
vec_get rejects as out of bounds exactly as the truncated `Nat` subtraction
`0 - 1 = 0 ≥ len` does, so the observable result coincides. -/
def vec_last (v : Vec α) : VecErr × Option α :=
  vec_get v (v.len - 1)

/-- vec_len: read-only length reporter. -/
def vec_len (v : Vec α) : VecErr × Option Nat :=
  let s := vec_validate_ptr v
  if s ≠ VecErr.OK then (s, none)
  else (VecErr.OK, some v.len)

/-- vec_capacity: read-only capacity reporter. -/
def vec_capacity (v : Vec α) : VecErr × Option Nat :=
  let s := vec_validate_ptr v
  if s ≠ VecErr.OK then (s, none)
  else (VecErr.OK, some v.capacity)

/-- vec_space: read-only remaining-space reporter (`capacity - len`). -/
def vec_space (v : Vec α) : VecErr × Option Nat :=
  let s := vec_validate_ptr v
  if s ≠ VecErr.OK then (s, none)
  else (VecErr.OK, some (v.capacity - v.len))

/-- vec_is_empty: read-only emptiness reporter. -/
def vec_is_empty (v : Vec α) : VecErr × Option Bool :=
  let s := vec_validate_ptr v
  if s ≠ VecErr.OK then (s, none)
  else (VecErr.OK, some (v.len == 0))

/-- vec_push called with a possibly-null handle: the argument expression
`vec->len` is evaluated before vec_insert can validate, so a null handle is
dereferenced — undefined behavior, modelled as `none`. -/
def vec_push_h (h : Option (Vec α)) (src : α) (alloc : Bool) :
    Option (VecErr × Vec α) :=
  match h with
  | none => none
  | some v => some (vec_push v src alloc)

/-- vec_pop called with a possibly-null handle: the function checks the
handle against NULL itself and reads `vec->len` before any magic validation
(which only happens inside vec_remove). -/
def vec_pop_h (h : Option (Vec α)) (alloc shrink : Bool) :
    VecErr × Option (Vec α) × Option α :=
  match h with
  | none => (VecErr.NULLPTR, none, none)
  | some v =>
    match vec_pop v alloc shrink with
    | (e, v1, r) => (e, some v1, r)

/-- vec_last called with a possibly-null handle: the argument expression
`vec->len - 1` dereferences the handle before vec_get validates, so a null
handle is undefined behavior, modelled as `none`. -/
def vec_last_h (h : Option (Vec α)) : Option (VecErr × Option α) :=
  match h with
  | none => none
  | some v => some (vec_last v)

/-- The public operation surface acting on one live container (the creation
operation, which acts on an empty slot, is covered by `vec_make` directly).
For `cloneFrom` the container under consideration is the destination slot's
current content; `extendBy` carries the source container. -/
inductive Op (α : Type) where
  | resizeTo (capacity : Nat)
  | shrinkToFit
  | clear
  | cloneFrom (src : Vec α) (same : Bool)
  | destroy
  | set (idx : Nat) (x : α)
  | swap (idx1 idx2 : Nat)
  | insert (idx : Nat) (x : α)
  | remove (idx : Nat)
  | push (x : α)
  | pop
  | fill (x : α) (n : Nat)
  | truncate (n : Nat)
  | extendBy (src : Vec α) (same : Bool)
  | get (idx : Nat)
  | first
  | last
  | lenOp
  | capOp
  | spaceOp
  | emptyOp
deriving DecidableEq

/-- Run one public operation on a live container.  The result is the status
together with the new content of the handle slot (`none` after destroy);
the outer `none` denotes undefined behavior (reachable only through
vec_extend's out-of-bounds memcpy). -/
def runOp (op : Op α) (v : Vec α) (alloc shrink : Bool) :
    Option (VecErr × Option (Vec α)) :=
  match op with
  | Op.resizeTo c => match vec_resize v c alloc with | (e, v1) => some (e, some v1)
  | Op.shrinkToFit => match vec_shrink_to_fit v alloc with | (e, v1) => some (e, some v1)
  | Op.clear => match vec_clear v alloc with | (e, v1) => some (e, some v1)
  | Op.cloneFrom src same => match vec_clone src (some v) same alloc with
    | (e, d) => some (e, d)
  | Op.destroy => match vec_destroy (some v) with | (e, s) => some (e, s)
  | Op.set idx x => match vec_set v idx x with | (e, v1, _) => some (e, some v1)
  | Op.swap i j => match vec_swap v i j alloc with | (e, v1) => some (e, some v1)
  | Op.insert idx x => match vec_insert v idx x alloc with | (e, v1) => some (e, some v1)
  | Op.remove idx => match vec_remove v idx alloc shrink with
    | (e, v1, _) => some (e, some v1)
  | Op.push x => match vec_push v x alloc with | (e, v1) => some (e, some v1)
  | Op.pop => match vec_pop v alloc shrink with | (e, v1, _) => some (e, some v1)
  | Op.fill x n => match vec_fill v x n alloc with | (e, v1) => some (e, some v1)
  | Op.truncate n => match vec_truncate v n alloc shrink with
    | (e, v1) => some (e, some v1)
  | Op.extendBy src same => match vec_extend v src same alloc with
    | some (e, v1) => some (e, some v1)
    | none => none
  | Op.get idx => some ((vec_get v idx).1, some v)
  | Op.first => some ((vec_first v).1, some v)
  | Op.last => some ((vec_last v).1, some v)
  | Op.lenOp => some ((vec_len v).1, some v)
  | Op.capOp => some ((vec_capacity v).1, some v)
  | Op.spaceOp => some ((vec_space v).1, some v)
  | Op.emptyOp => some ((vec_is_empty v).1, some v)

/-- A live, well-formed container: genuine sentinel and the invariants of
the data model (§3 of the spec), including that the backing buffer has
exactly `capacity` slots. -/
def Valid (v : Vec α) : Prop :=
  v.magic = VEC_MAGIC ∧ v.len ≤ v.capacity ∧ MIN_CAPACITY ≤ v.capacity ∧
    v.capacity ≤ MAX_CAPACITY ∧ v.elems.length = v.capacity

instance (v : Vec α) : Decidable (Valid v) := by
  unfold Valid
  infer_instance

/-- The invariants that survive every successful operation (the
MIN_CAPACITY floor is stated separately because vec_shrink_to_fit breaks
it). -/
def WeakInv (v : Vec α) : Prop :=
  v.len ≤ v.capacity ∧ v.capacity ≤ MAX_CAPACITY ∧ v.elems.length = v.capacity

instance (v : Vec α) : Decidable (WeakInv v) := by
  unfold WeakInv
  infer_instance

/-- Validity of the container embedded in the operation itself (the second
live container of clone and extend). -/
def OpValid : Op α → Prop
  | Op.cloneFrom src _ => Valid src
  | Op.extendBy src _ => Valid src
  | _ => True

/-- The operations whose automatic shrink runs after the length has already
been lowered: remove, pop and truncate. -/
def shrinkExempt : Op α → Bool
  | Op.remove _ => true
  | Op.pop => true
  | Op.truncate _ => true
  | _ => false

theorem getD_take_lt {l : List α} {n i : Nat} (d : α) (h : i < n) :
    (l.take n).getD i d = l.getD i d := by
  by_cases hi : i < l.length
  · have h1 : i < (l.take n).length := by
      simp only [List.length_take]
      omega
    rw [List.getD_eq_getElem _ _ h1, List.getD_eq_getElem _ _ hi, List.getElem_take]
  · rw [List.getD_eq_default, List.getD_eq_default]
    · omega
    · simp only [List.length_take]
      omega

theorem getD_set_self {l : List α} {i : Nat} {x d : α} (h : i < l.length) :
    (l.set i x).getD i d = x := by
  have h1 : i < (l.set i x).length := by simpa using h
  rw [List.getD_eq_getElem _ _ h1, List.getElem_set_self]

theorem memcpy_front_length (l : List α) (dst cnt : Nat) (h : dst + cnt ≤ l.length) :
    (memcpy_front l dst cnt).length = l.length := by
  simp only [memcpy_front, List.length_append, List.length_take, List.length_drop]
  omega

theorem memcpy_front_getD (l : List α) (dst cnt : Nat) (x d : α)
    (hbound : dst + cnt ≤ l.length) (hcnt : cnt ≤ dst)
    (hpre : ∀ j, j < dst → l.getD j d = x) :
    ∀ i, i < dst + cnt → (memcpy_front l dst cnt).getD i d = x := by
  intro i hi
  unfold memcpy_front
  rw [List.append_assoc]
  have hdst : (l.take dst).length = dst := by
    simp only [List.length_take]
    omega
  by_cases h1 : i < dst
  · rw [List.getD_append _ _ _ _ (by omega : i < (l.take dst).length),
      getD_take_lt _ h1]
    exact hpre i h1
  · rw [List.getD_append_right _ _ _ _ (by omega : (l.take dst).length ≤ i), hdst]
    have hcl : (l.take cnt).length = cnt := by
      simp only [List.length_take]
      omega
    rw [List.getD_append _ _ _ _ (by omega : i - dst < (l.take cnt).length),
      getD_take_lt _ (by omega : i - dst < cnt)]
    exact hpre (i - dst) (by omega)

theorem vec_fill_loop_spec (x d : α) :
    ∀ (k : Nat) (l : List α) (off1 n : Nat), n - off1 = k →
      n ≤ l.length → off1 + 1 ≤ n →
      (∀ j, j < off1 + 1 → l.getD j d = x) →
      (vec_fill_loop l off1 n).length = l.length ∧
        ∀ i, i < n → (vec_fill_loop l off1 n).getD i d = x := by
  intro k
  induction k using Nat.strong_induction_on with
  | _ k ih =>
    intro l off1 n hk hlen hoff hpre
    rw [vec_fill_loop]
    by_cases h : 2 * (off1 + 1) < n
    · simp only [h, dif_pos]
      have hb : (off1 + 1) + (off1 + 1) ≤ l.length := by omega
      have hlen2 : (memcpy_front l (off1 + 1) (off1 + 1)).length = l.length :=
        memcpy_front_length _ _ _ hb
      have hpre2 : ∀ j, j < (2 * (off1 + 1) - 1) + 1 →
          (memcpy_front l (off1 + 1) (off1 + 1)).getD j d = x := by
        intro j hj
        exact memcpy_front_getD l (off1 + 1) (off1 + 1) x d hb (le_refl _) hpre j (by omega)
      have := ih (n - (2 * (off1 + 1) - 1)) (by omega)
        (memcpy_front l (off1 + 1) (off1 + 1)) (2 * (off1 + 1) - 1) n rfl
        (by omega) (by omega) hpre2
      exact ⟨this.1.trans hlen2, this.2⟩
    · simp only [h, dif_neg, not_false_iff]
      constructor
      · exact memcpy_front_length _ _ _ (by omega)
      · intro i hi
        exact memcpy_front_getD l (off1 + 1) (n - (off1 + 1)) x d (by omega) (by omega)
          hpre i (by omega)

theorem realloc_elems_length (l : List α) (c : Nat) :
    (l.take c ++ List.replicate (c - l.length) (default : α)).length = c := by
  simp only [List.length_append, List.length_take, List.length_replicate]
  omega

theorem realloc_elems_getD (l : List α) (c i : Nat) (h : i < c) :
    (l.take c ++ List.replicate (c - l.length) (default : α)).getD i default =
      l.getD i default := by
  by_cases hi : i < l.length
  · rw [List.getD_append]
    · exact getD_take_lt _ h
    · simp only [List.length_take]
      omega
  · have hlc : l.length < c := by omega
    have htl : (l.take c).length = l.length := by
      simp only [List.length_take]
      omega
    rw [List.getD_append_right _ _ _ _ (by omega), htl,
      List.getD_eq_default _ _ (by omega : l.length ≤ i)]
    have hr : i - l.length < (List.replicate (c - l.length) (default : α)).length := by
      simp only [List.length_replicate]
      omega
    rw [List.getD_eq_getElem _ _ hr, List.getElem_replicate]

theorem vec_reallocate_false (v : Vec α) (c : Nat) :
    vec_reallocate v c false = (VecErr.NOMEM, v) := rfl

theorem vec_reallocate_true_eq (v : Vec α) (c : Nat) :
    vec_reallocate v c true = (VecErr.OK,
      { v with
        elems := v.elems.take c ++ List.replicate (c - v.elems.length) default
        capacity := c
        len := if v.len > c then c else v.len }) := by
  simp [vec_reallocate]

theorem vec_check_grow_cases (v : Vec α) (a : Bool)
    (hlen : v.len ≤ v.capacity) (hL : v.elems.length = v.capacity)
    (hmin : MIN_CAPACITY ≤ v.capacity) (hmax : v.capacity ≤ MAX_CAPACITY) :
    (∃ g, vec_check_grow v a = (VecErr.OK, g) ∧ g.magic = v.magic ∧
      g.elem_size = v.elem_size ∧ g.len = v.len ∧ g.elems.length = g.capacity ∧
      g.len < g.capacity ∧ g.capacity ≤ MAX_CAPACITY ∧ MIN_CAPACITY ≤ g.capacity ∧
      (∀ i, i < v.len → g.elems.getD i default = v.elems.getD i default)) ∨
    (∃ e, vec_check_grow v a = (e, v) ∧ e ≠ VecErr.OK) := by
  by_cases h1 : v.len < v.capacity * GROWTH_POLICY
  · left
    refine ⟨v, by simp [vec_check_grow, h1], rfl, rfl, rfl, hL, ?_, hmax, hmin, fun i _ => rfl⟩
    simp only [GROWTH_POLICY, Nat.mul_one] at h1
    exact h1
  · by_cases h2 : v.capacity > MAX_CAPACITY / GROWTH_FACTOR ∨
        v.capacity * GROWTH_FACTOR > MAX_CAPACITY
    · right
      exact ⟨VecErr.INVOP, by simp [vec_check_grow, h1, h2], by simp⟩
    · push_neg at h2
      obtain ⟨h2a, h2b⟩ := h2
      have hne : ¬ (MIN_CAPACITY > v.capacity * GROWTH_FACTOR) := by
        simp only [MIN_CAPACITY, GROWTH_FACTOR]
        simp only [MIN_CAPACITY] at hmin
        omega
      have hgrow : vec_check_grow v a = vec_reallocate v (v.capacity * GROWTH_FACTOR) a := by
        unfold vec_check_grow
        rw [if_neg h1, if_neg (by omega : ¬ (v.capacity > MAX_CAPACITY / GROWTH_FACTOR ∨
          v.capacity * GROWTH_FACTOR > MAX_CAPACITY))]
        simp only [if_neg hne]
      cases a with
      | false =>
        right
        refine ⟨VecErr.NOMEM, ?_, by simp⟩
        rw [hgrow, vec_reallocate_false]
      | true =>
        left
        rw [hgrow, vec_reallocate_true_eq]
        have hlt : ¬ (v.len > v.capacity * GROWTH_FACTOR) := by
          simp only [GROWTH_FACTOR]
          omega
        simp only [GROWTH_POLICY, GROWTH_FACTOR, MIN_CAPACITY,
          MAX_CAPACITY] at h1 h2a h2b hlen hL hmin hmax hlt ⊢
        refine ⟨_, rfl, rfl, rfl, ?_, realloc_elems_length _ _, ?_, ?_, ?_, ?_⟩
        · dsimp only
          rw [if_neg hlt]
        · dsimp only
          rw [if_neg hlt]
          omega
        · dsimp only
          omega
        · dsimp only
          omega
        · intro i hi
          exact realloc_elems_getD _ _ _ (by omega)

theorem vec_check_shrink_true (v : Vec α) (hL : v.elems.length = v.capacity) :
    (vec_check_shrink v true).1 = VecErr.OK ∧
    (vec_check_shrink v true).2.magic = v.magic ∧
    (vec_check_shrink v true).2.elem_size = v.elem_size ∧
    (vec_check_shrink v true).2.len = v.len ∧
    (vec_check_shrink v true).2.elems.length = (vec_check_shrink v true).2.capacity ∧
    ((vec_check_shrink v true).2.capacity = v.capacity ∨
      (MIN_CAPACITY ≤ (vec_check_shrink v true).2.capacity ∧
        (vec_check_shrink v true).2.capacity ≤ v.capacity)) := by
  by_cases h1 : v.len ≥ v.capacity / SHRINK_POLICY ∨ v.capacity ≤ MIN_CAPACITY
  · have hs : vec_check_shrink v true = (VecErr.OK, v) := by
      unfold vec_check_shrink
      rw [if_pos h1]
    rw [hs]
    exact ⟨rfl, rfl, rfl, rfl, hL, Or.inl rfl⟩
  · push_neg at h1
    obtain ⟨h1a, h1b⟩ := h1
    have hs : vec_check_shrink v true =
        vec_reallocate v
          (if v.capacity / SHRINK_FACTOR < MIN_CAPACITY then MIN_CAPACITY
           else v.capacity / SHRINK_FACTOR) true := by
      unfold vec_check_shrink
      rw [if_neg (by push_neg; exact ⟨h1a, h1b⟩)]
    rw [hs, vec_reallocate_true_eq]
    simp only [SHRINK_POLICY] at h1a
    refine ⟨rfl, rfl, rfl, ?_, realloc_elems_length _ _, Or.inr ⟨?_, ?_⟩⟩
    · dsimp only
      simp only [SHRINK_FACTOR, MIN_CAPACITY] at h1b ⊢
      rw [if_neg (show ¬ (v.len > if v.capacity / 2 < 16 then 16
        else v.capacity / 2) by split <;> omega)]
    · dsimp only
      simp only [SHRINK_FACTOR, MIN_CAPACITY] at h1b ⊢
      split <;> omega
    · dsimp only
      simp only [SHRINK_FACTOR, MIN_CAPACITY] at h1b ⊢
      split <;> omega

theorem vec_check_shrink_ne_ok (v : Vec α) (a : Bool) (e : VecErr) (w : Vec α)
    (h : vec_check_shrink v a = (e, w)) (he : e ≠ VecErr.OK) :
    w = v ∧ e = VecErr.NOMEM := by
  unfold vec_check_shrink at h
  split at h
  · cases h
    exact absurd rfl he
  · unfold vec_reallocate at h
    split at h
    · cases h
      exact ⟨rfl, rfl⟩
    · cases h
      exact absurd rfl he

theorem vec_check_grow_ne_ok (v : Vec α) (a : Bool) (e : VecErr) (w : Vec α)
    (h : vec_check_grow v a = (e, w)) (he : e ≠ VecErr.OK) : w = v := by
  unfold vec_check_grow at h
  split at h
  · cases h
    rfl
  · split at h
    · cases h
      rfl
    · unfold vec_reallocate at h
      split at h
      · cases h
        rfl
      · cases h
        exact absurd rfl he

theorem validate_ok (v : Vec α) (h : v.magic = VEC_MAGIC) :
    vec_validate_ptr v = VecErr.OK := by
  simp [vec_validate_ptr, h]

theorem vec_resize_ok (v : Vec α) (c : Nat) (a : Bool) (v1 : Vec α)
    (hm : v.magic = VEC_MAGIC)
    (h : vec_resize v c a = (VecErr.OK, v1)) :
    v1.magic = v.magic ∧ v1.elem_size = v.elem_size ∧ v1.capacity = c ∧
    MIN_CAPACITY < c ∧ c ≤ MAX_CAPACITY ∧ v1.len = min v.len c ∧
    v1.elems.length = c ∧
    (∀ i, i < c → v1.elems.getD i default = v.elems.getD i default) := by
  simp only [vec_resize, validate_ok v hm, ne_eq, not_true_eq_false, if_false,
    reduceCtorEq, ite_false] at h
  split at h
  · simp at h
  · rename_i hrange
    push_neg at hrange
    cases a with
    | false =>
      rw [vec_reallocate_false] at h
      simp at h
    | true =>
      rw [vec_reallocate_true_eq] at h
      injection h with h1 h2
      subst h2
      refine ⟨hm.symm ▸ rfl, rfl, rfl, by omega, by omega, ?_,
        realloc_elems_length _ _, fun i hi => realloc_elems_getD _ _ _ hi⟩
      dsimp only
      split <;> omega

theorem vec_shrink_to_fit_ok (v : Vec α) (a : Bool) (v1 : Vec α)
    (hm : v.magic = VEC_MAGIC) (hlen : v.len ≤ v.capacity)
    (hL : v.elems.length = v.capacity)
    (h : vec_shrink_to_fit v a = (VecErr.OK, v1)) :
    v1.magic = v.magic ∧ v1.elem_size = v.elem_size ∧ v1.len = v.len ∧
    (v1 = v ∨ (0 < v.len ∧ v1.capacity = v.len)) ∧
    v1.len ≤ v1.capacity ∧ v1.capacity ≤ v.capacity ∧
    v1.elems.length = v1.capacity := by
  simp only [vec_shrink_to_fit, validate_ok v hm, ne_eq, not_true_eq_false,
    reduceCtorEq, ite_false] at h
  split at h
  · simp at h
  · rename_i hz
    split at h
    · rename_i hfull
      injection h with h1 h2
      subst h2
      exact ⟨rfl, rfl, rfl, Or.inl rfl, hlen, le_refl _, hL⟩
    · cases a with
      | false =>
        rw [vec_reallocate_false] at h
        simp at h
      | true =>
        rw [vec_reallocate_true_eq] at h
        injection h with h1 h2
        subst h2
        refine ⟨hm.symm ▸ rfl, rfl, ?_, Or.inr ⟨by omega, rfl⟩, ?_, ?_,
          realloc_elems_length _ _⟩
        · dsimp only
          split <;> omega
        · dsimp only
          split <;> omega
        · dsimp only
          omega

theorem vec_clear_ok (v : Vec α) (a : Bool) (v1 : Vec α)
    (hm : v.magic = VEC_MAGIC) (hmin : MIN_CAPACITY ≤ v.capacity)
    (hmax : v.capacity ≤ MAX_CAPACITY) (hL : v.elems.length = v.capacity)
    (h : vec_clear v a = (VecErr.OK, v1)) :
    v1.magic = v.magic ∧ v1.elem_size = v.elem_size ∧ v1.len = 0 ∧
    MIN_CAPACITY ≤ v1.capacity ∧ v1.capacity ≤ v.capacity ∧
    v1.elems.length = v1.capacity := by
  simp only [vec_clear, validate_ok v hm, ne_eq, not_true_eq_false,
    reduceCtorEq, ite_false] at h
  split at h
  · rename_i hsmall
    injection h with h1 h2
    subst h2
    exact ⟨rfl, rfl, rfl, by dsimp only; omega, le_refl _, by dsimp only; omega⟩
  · rename_i hbig
    split at h
    · simp at h
    · injection h with h1 h2
      subst h2
      refine ⟨rfl, rfl, rfl, le_refl _, by dsimp only; omega, ?_⟩
      dsimp only
      rw [List.length_replicate]

theorem vec_check_shrink_ok (v : Vec α) (a : Bool) (w : Vec α)
    (hL : v.elems.length = v.capacity) (hlen : v.len ≤ v.capacity)
    (h : vec_check_shrink v a = (VecErr.OK, w)) :
    w.magic = v.magic ∧ w.elem_size = v.elem_size ∧ w.len = v.len ∧
    w.elems.length = w.capacity ∧ w.len ≤ w.capacity ∧
    (w.capacity = v.capacity ∨ (MIN_CAPACITY ≤ w.capacity ∧ w.capacity ≤ v.capacity)) := by
  unfold vec_check_shrink at h
  split at h
  · injection h with h1 h2
    subst h2
    exact ⟨rfl, rfl, rfl, hL, hlen, Or.inl rfl⟩
  · rename_i hcond
    push_neg at hcond
    obtain ⟨h1a, h1b⟩ := hcond
    cases a with
    | false =>
      rw [vec_reallocate_false] at h
      simp at h
    | true =>
      rw [vec_reallocate_true_eq] at h
      injection h with h1 h2
      subst h2
      simp only [SHRINK_POLICY] at h1a
      refine ⟨rfl, rfl, ?_, realloc_elems_length _ _, ?_, Or.inr ⟨?_, ?_⟩⟩
      · dsimp only
        simp only [SHRINK_FACTOR, MIN_CAPACITY] at h1b ⊢
        rw [if_neg (show ¬ (v.len > if v.capacity / 2 < 16 then 16
          else v.capacity / 2) by split <;> omega)]
      · dsimp only
        simp only [SHRINK_FACTOR, MIN_CAPACITY] at h1b ⊢
        split <;> split <;> omega
      · dsimp only
        simp only [SHRINK_FACTOR, MIN_CAPACITY] at h1b ⊢
        split <;> omega
      · dsimp only
        simp only [SHRINK_FACTOR, MIN_CAPACITY] at h1b ⊢
        split <;> omega

theorem vec_set_ok (v : Vec α) (idx : Nat) (x : α) (v1 : Vec α) (r : Option α)
    (hm : v.magic = VEC_MAGIC)
    (h : vec_set v idx x = (VecErr.OK, v1, r)) :
    v1.magic = v.magic ∧ v1.elem_size = v.elem_size ∧ v1.len = v.len ∧
    v1.capacity = v.capacity ∧ v1.elems.length = v.elems.length := by
  simp only [vec_set, validate_ok v hm, ne_eq, not_true_eq_false,
    reduceCtorEq, ite_false] at h
  split at h
  · simp at h
  · injection h with h1 h2
    injection h2 with h2a h2b
    subst h2a
    exact ⟨rfl, rfl, rfl, rfl, List.length_set _ _ _⟩

theorem vec_swap_ok (v : Vec α) (idx1 idx2 : Nat) (a : Bool) (v1 : Vec α)
    (hm : v.magic = VEC_MAGIC)
    (h : vec_swap v idx1 idx2 a = (VecErr.OK, v1)) :
    v1.magic = v.magic ∧ v1.elem_size = v.elem_size ∧ v1.len = v.len ∧
    v1.capacity = v.capacity ∧ v1.elems.length = v.elems.length := by
  simp only [vec_swap, validate_ok v hm, ne_eq, not_true_eq_false,
    reduceCtorEq, ite_false] at h
  split at h
  · simp at h
  · split at h
    · simp at h
    · split at h
      · simp at h
      · injection h with h1 h2
        subst h2
        refine ⟨rfl, rfl, rfl, rfl, ?_⟩
        simp [vec_write_idx, List.length_set]

theorem vec_insert_ok (v : Vec α) (idx : Nat) (x : α) (a : Bool) (v1 : Vec α)
    (hv : Valid v)
    (h : vec_insert v idx x a = (VecErr.OK, v1)) :
    v1.magic = VEC_MAGIC ∧ v1.elem_size = v.elem_size ∧ v1.len = v.len + 1 ∧
    v1.elems.length = v1.capacity ∧ v1.len ≤ v1.capacity ∧
    MIN_CAPACITY ≤ v1.capacity ∧ v1.capacity ≤ MAX_CAPACITY ∧
    idx ≤ v.len ∧ v1.elems.getD idx default = x := by
  obtain ⟨hm, hlen, hmin, hmax, hL⟩ := hv
  simp only [vec_insert, validate_ok v hm, ne_eq, not_true_eq_false,
    reduceCtorEq, ite_false] at h
  split at h
  · simp at h
  · rename_i hidx
    push_neg at hidx
    rcases vec_check_grow_cases v a hlen hL hmin hmax with
      ⟨g, hgeq, gm, ges, glen, gL, gltc, gmax, gmin, _⟩ | ⟨e, heq, hne⟩
    · rw [hgeq] at h
      injection h with h1 h2
      subst h2
      have hslen : (g.elems.take (idx + 1) ++ (g.elems.drop idx).take (g.len - idx) ++
          g.elems.drop (g.len + 1)).length = g.capacity := by
        simp only [List.length_append, List.length_take, List.length_drop]
        omega
      have hswl : idx < (g.elems.take (idx + 1) ++ (g.elems.drop idx).take (g.len - idx) ++
          g.elems.drop (g.len + 1)).length := by
        rw [hslen]
        omega
      refine ⟨gm ▸ hm, ges, by simp only [vec_write_idx]; omega, ?_, ?_, ?_, ?_, hidx, ?_⟩
      · simp only [vec_write_idx]
        rw [List.length_set]
        exact hslen
      · simp only [vec_write_idx]
        omega
      · simp only [vec_write_idx]
        omega
      · simp only [vec_write_idx]
        omega
      · simp only [vec_write_idx]
        exact getD_set_self hswl
    · rw [heq] at h
      cases e <;> simp_all

theorem vec_remove_ok (v : Vec α) (idx : Nat) (a sh : Bool) (v1 : Vec α) (r : Option α)
    (hv : Valid v)
    (h : vec_remove v idx a sh = (VecErr.OK, v1, r)) :
    v1.magic = VEC_MAGIC ∧ v1.elem_size = v.elem_size ∧ v1.len = v.len - 1 ∧
    idx < v.len ∧ v1.elems.length = v1.capacity ∧ v1.len ≤ v1.capacity ∧
    MIN_CAPACITY ≤ v1.capacity ∧ v1.capacity ≤ MAX_CAPACITY ∧
    r = some (v.elems.getD idx default) := by
  obtain ⟨hm, hlen, hmin, hmax, hL⟩ := hv
  simp only [vec_remove, validate_ok v hm, ne_eq, not_true_eq_false,
    reduceCtorEq, ite_false, vec_write_var] at h
  split at h
  · simp at h
  · rename_i hidx
    push_neg at hidx
    set v2 : Vec α := { (if idx ≠ v.len - 1 then
      { v with
        elems := v.elems.take idx ++ (v.elems.drop (idx + 1)).take (v.len - idx - 1) ++
          v.elems.drop (v.len - 1) }
      else v) with len := v.len - 1 } with hv2
    have hv2m : v2.magic = VEC_MAGIC := by
      rw [hv2]
      split <;> exact hm
    have hv2es : v2.elem_size = v.elem_size := by
      rw [hv2]
      split <;> rfl
    have hv2len : v2.len = v.len - 1 := rfl
    have hv2cap : v2.capacity = v.capacity := by
      rw [hv2]
      split <;> rfl
    have hv2L : v2.elems.length = v2.capacity := by
      rw [hv2]
      split
      · simp only [List.length_append, List.length_take, List.length_drop]
        omega
      · exact hL
    cases sh with
    | false =>
      injection h with h1 h2
      injection h2 with h2a h2b
      subst h2a
      subst h2b
      exact ⟨hv2m, hv2es, hv2len, by omega, hv2L, by rw [hv2len, hv2cap]; omega,
        by rw [hv2cap]; exact hmin, by rw [hv2cap]; exact hmax, rfl⟩
    | true =>
      rcases hck : vec_check_shrink v2 a with ⟨e, v3⟩
      rw [hck] at h
      dsimp only at h
      injection h with h1 h2
      injection h2 with h2a h2b
      subst h1
      subst h2a
      subst h2b
      obtain ⟨w1, w2, w3, w4, w5, w6⟩ :=
        vec_check_shrink_ok v2 a _ hv2L (by rw [hv2len, hv2cap]; omega) hck
      refine ⟨w1.trans hv2m, w2.trans hv2es, w3.trans hv2len, by omega, w4, w5, ?_, ?_, rfl⟩
      · rcases w6 with hc | ⟨hc1, hc2⟩
        · rw [hc, hv2cap]
          exact hmin
        · exact hc1
      · rcases w6 with hc | ⟨hc1, hc2⟩
        · rw [hc, hv2cap]
          exact hmax
        · rw [hv2cap] at hc2
          omega

theorem vec_truncate_ok (v : Vec α) (n : Nat) (a sh : Bool) (v1 : Vec α)
    (hv : Valid v)
    (h : vec_truncate v n a sh = (VecErr.OK, v1)) :
    v1.magic = VEC_MAGIC ∧ v1.elem_size = v.elem_size ∧
    v1.len = (if n ≥ v.len then v.len else n) ∧
    v1.elems.length = v1.capacity ∧ v1.len ≤ v1.capacity ∧
    MIN_CAPACITY ≤ v1.capacity ∧ v1.capacity ≤ MAX_CAPACITY := by
  obtain ⟨hm, hlen, hmin, hmax, hL⟩ := hv
  simp only [vec_truncate, validate_ok v hm, ne_eq, not_true_eq_false,
    reduceCtorEq, ite_false] at h
  split at h
  · rename_i hge
    injection h with h1 h2
    subst h2
    rw [if_pos hge]
    exact ⟨hm, rfl, rfl, hL, hlen, hmin, hmax⟩
  · rename_i hge
    push_neg at hge
    rw [if_neg (by omega)]
    cases sh with
    | false =>
      injection h with h1 h2
      subst h2
      exact ⟨hm, rfl, rfl, hL, by dsimp only; omega, hmin, hmax⟩
    | true =>
      rcases hck : vec_check_shrink { v with len := n } a with ⟨e, v3⟩
      rw [hck] at h
      injection h with h1 h2
      subst h1
      subst h2
      obtain ⟨w1, w2, w3, w4, w5, w6⟩ :=
        vec_check_shrink_ok { v with len := n } a _ hL (by dsimp only; omega) hck
      refine ⟨w1.trans hm, w2, w3, w4, w5, ?_, ?_⟩
      · rcases w6 with hc | ⟨hc1, hc2⟩
        · rw [hc]
          exact hmin
        · exact hc1
      · rcases w6 with hc | ⟨hc1, hc2⟩
        · rw [hc]
          exact hmax
        · dsimp only at hc2
          omega

theorem vec_make_none_ok (es c : Nat) (a : Bool) (w : Vec α)
    (h : vec_make (none : Option (Vec α)) es c a = (VecErr.OK, some w)) :
    w.magic = VEC_MAGIC ∧ w.len = 0 ∧ w.elem_size = es ∧
    w.capacity = max MIN_CAPACITY c ∧ w.elems.length = w.capacity ∧
    MIN_DATA_SIZE ≤ es ∧ es ≤ MAX_DATA_SIZE := by
  unfold vec_make at h
  split at h
  · simp at h
  · rename_i hes
    push_neg at hes
    cases a with
    | false => simp at h
    | true =>
      simp only [if_neg (by decide : ¬ (true = false))] at h
      injection h with h1 h2
      injection h2 with h2a
      subst h2a
      refine ⟨rfl, rfl, rfl, ?_, ?_, hes.1, hes.2⟩
      · dsimp only
        split <;> omega
      · dsimp only
        rw [List.length_replicate]

theorem vec_make_none_ok_ne (es c : Nat) (a : Bool)
    (h : vec_make (none : Option (Vec α)) es c a = (VecErr.OK, none)) : False := by
  unfold vec_make at h
  split at h
  · simp at h
  · cases a with
    | false => simp at h
    | true =>
      simp only [if_neg (by decide : ¬ (true = false))] at h
      simp at h

theorem cloneCopy_facts (src d : Vec α) (hsl : src.len ≤ src.elems.length)
    (hcap : src.len ≤ d.elems.length) :
    (cloneCopy src d).magic = d.magic ∧ (cloneCopy src d).elem_size = d.elem_size ∧
    (cloneCopy src d).capacity = d.capacity ∧ (cloneCopy src d).len = src.len ∧
    (cloneCopy src d).elems.length = d.elems.length ∧
    (∀ i, i < src.len → (cloneCopy src d).elems.getD i default =
      src.elems.getD i default) := by
  refine ⟨rfl, rfl, rfl, rfl, ?_, ?_⟩
  · simp only [cloneCopy, List.length_append, List.length_take, List.length_drop]
    omega
  · intro i hi
    simp only [cloneCopy]
    rw [List.getD_append _ _ _ _ (by simp only [List.length_take]; omega),
      getD_take_lt _ hi]

theorem vec_clone_ok (src : Vec α) (dst : Option (Vec α)) (same a : Bool) (d1 : Vec α)
    (hs : Valid src) (hwf : ∀ d0, dst = some d0 → d0.elems.length = d0.capacity)
    (h : vec_clone src dst same a = (VecErr.OK, some d1)) :
    d1.magic = VEC_MAGIC ∧ d1.elem_size = src.elem_size ∧ d1.len = src.len ∧
    src.len ≤ d1.capacity ∧ d1.elems.length = d1.capacity ∧
    (∀ i, i < src.len → d1.elems.getD i default = src.elems.getD i default) ∧
    ((dst = none ∨ ∃ d0, dst = some d0 ∧ d0.capacity < src.len) →
      d1.capacity = max MIN_CAPACITY src.len) ∧
    (∀ d0, dst = some d0 → ¬ d0.capacity < src.len →
      d1.capacity = d0.capacity ∧ d1.magic = d0.magic) := by
  obtain ⟨hm, hlen, hmin, hmax, hL⟩ := hs
  have hsl : src.len ≤ src.elems.length := by omega
  simp only [vec_clone, validate_ok src hm, ne_eq, not_true_eq_false,
    reduceCtorEq, ite_false] at h
  match hdst : dst with
  | none =>
    dsimp only at h
    rcases hmk : vec_make (none : Option (Vec α)) src.elem_size src.len a with ⟨e, s⟩
    rw [hmk] at h
    match e, s with
    | VecErr.OK, some clone =>
      obtain ⟨k1, k2, k3, k4, k5, k6, k7⟩ := vec_make_none_ok _ _ _ _ hmk
      dsimp only at h
      injection h with h1 h2
      injection h2 with h2a
      subst h2a
      obtain ⟨c1, c2, c3, c4, c5, c6⟩ := cloneCopy_facts src clone hsl
        (by rw [k5, k4]; omega)
      refine ⟨c1.trans k1, c2.trans (k3.symm ▸ rfl), c4, ?_, ?_, c6, ?_, ?_⟩
      · rw [c3, k4]
        omega
      · rw [c5, k5, c3]
      · intro hcase
        rw [c3, k4]
      · intro d0 hd0
        simp at hd0
    | VecErr.OK, none => simp at h
    | VecErr.IOOB, s => simp at h
    | VecErr.NULLPTR, s => simp at h
    | VecErr.INVPTR, s => simp at h
    | VecErr.INVOP, s => simp at h
    | VecErr.NOMEM, s => simp at h
  | some d0 =>
    dsimp only at h
    have hwf0 : d0.elems.length = d0.capacity := hwf d0 rfl
    split at h
    · rename_i hval
      injection h with hA hB
      exact absurd hA hval
    · split at h
      · simp at h
      · rename_i hval hsame
        split at h
        · rename_i hsmall
          rcases hmk : vec_make (none : Option (Vec α)) src.elem_size src.len a with ⟨e, s⟩
          rw [hmk] at h
          match e, s with
          | VecErr.OK, some clone =>
            obtain ⟨k1, k2, k3, k4, k5, k6, k7⟩ := vec_make_none_ok _ _ _ _ hmk
            dsimp only at h
            injection h with h1 h2
            injection h2 with h2a
            subst h2a
            obtain ⟨c1, c2, c3, c4, c5, c6⟩ := cloneCopy_facts src clone hsl
              (by rw [k5, k4]; omega)
            refine ⟨c1.trans k1, c2.trans (k3.symm ▸ rfl), c4, ?_, ?_, c6, ?_, ?_⟩
            · rw [c3, k4]
              omega
            · rw [c5, k5, c3]
            · intro hcase
              rw [c3, k4]
            · intro d0x hd0x hge
              injection hd0x with hd0e
              subst hd0e
              exact absurd hsmall hge
          | VecErr.OK, none => exact (vec_make_none_ok_ne _ _ _ hmk).elim
          | VecErr.IOOB, s => simp at h
          | VecErr.NULLPTR, s => simp at h
          | VecErr.INVPTR, s => simp at h
          | VecErr.INVOP, s => simp at h
          | VecErr.NOMEM, s => simp at h
        · rename_i hbig
          injection h with h1 h2
          injection h2 with h2a
          subst h2a
          obtain ⟨c1, c2, c3, c4, c5, c6⟩ := cloneCopy_facts src d0 hsl
            (by rw [hwf0]; omega)
          refine ⟨?_, ?_, c4, ?_, ?_, c6, ?_, ?_⟩
          · rw [c1]
            have : vec_validate_ptr d0 = VecErr.OK := by
              rcases hv : vec_validate_ptr d0 with _ | _ | _ | _ | _ | _ <;>
                simp_all
            unfold vec_validate_ptr at this
            split at this
            · exact absurd this (by simp)
            · rename_i hmm
              push_neg at hmm
              exact hmm
          · rw [c2]
            push_neg at hsame
            exact hsame.1
          · rw [c3]
            omega
          · rw [c5, hwf0, c3]
          · intro hcase
            rcases hcase with hcase | ⟨d0x, hd0x, hlt⟩
            · simp at hcase
            · injection hd0x with hd0e
              subst hd0e
              exact absurd hlt hbig
          · intro d0x hd0x hge
            injection hd0x with hd0e
            subst hd0e
            exact ⟨c3, c1⟩

theorem vec_fill_ok (v : Vec α) (x : α) (n : Nat) (a : Bool) (v1 : Vec α)
    (hv : Valid v) (hn : 1 ≤ n)
    (h : vec_fill v x n a = (VecErr.OK, v1)) :
    v1.magic = VEC_MAGIC ∧ v1.elem_size = v.elem_size ∧
    v1.len = max v.len n ∧
    v1.capacity = (if v.capacity < n then n else v.capacity) ∧
    v1.elems.length = v1.capacity ∧
    (∀ i, i < n → v1.elems.getD i default = x) := by
  obtain ⟨hm, hlen, hmin, hmax, hL⟩ := hv
  simp only [vec_fill, validate_ok v hm, ne_eq, not_true_eq_false,
    reduceCtorEq, ite_false] at h
  rw [if_neg (by omega : ¬ n = 0)] at h
  by_cases hcap : v.capacity < n
  · rw [if_pos hcap] at h
    rcases hres : vec_resize v n a with ⟨e, vr⟩
    rw [hres] at h
    match e with
    | VecErr.OK =>
      obtain ⟨r1, r2, r3, r4, r5, r6, r7, r8⟩ := vec_resize_ok v n a vr hm hres
      have hrlen : vr.len = v.len := by
        rw [r6]
        omega
      dsimp only at h
      rw [if_pos (by omega : vr.len < n)] at h
      injection h with h1 h2
      subst h2
      have hset : ∀ j, j < 0 + 1 → (vr.elems.set 0 x).getD j default = x := by
        intro j hj
        have hj0 : j = 0 := by omega
        subst hj0
        exact getD_set_self (by omega)
      obtain ⟨hFL, hFD⟩ := vec_fill_loop_spec x default (n - 0) (vr.elems.set 0 x) 0 n
        rfl (by rw [List.length_set]; omega) (by omega) hset
      refine ⟨r1 ▸ hm, r2, ?_, ?_, ?_, ?_⟩
      · dsimp only
        omega
      · dsimp only
        rw [r3, if_pos hcap]
      · dsimp only
        rw [hFL, List.length_set, r7, r3]
      · intro i hi
        exact hFD i hi
    | VecErr.IOOB => simp at h
    | VecErr.NULLPTR => simp at h
    | VecErr.INVPTR => simp at h
    | VecErr.INVOP => simp at h
    | VecErr.NOMEM => simp at h
  · rw [if_neg hcap] at h
    dsimp only at h
    by_cases hln : v.len < n
    · rw [if_pos hln] at h
      injection h with h1 h2
      subst h2
      have hset : ∀ j, j < 0 + 1 → (v.elems.set 0 x).getD j default = x := by
        intro j hj
        have hj0 : j = 0 := by omega
        subst hj0
        exact getD_set_self (by omega)
      obtain ⟨hFL, hFD⟩ := vec_fill_loop_spec x default (n - 0) (v.elems.set 0 x) 0 n
        rfl (by rw [List.length_set]; omega) (by omega) hset
      refine ⟨hm, rfl, by dsimp only; omega, by dsimp only; rw [if_neg hcap], ?_, ?_⟩
      · dsimp only
        rw [hFL, List.length_set]
        exact hL
      · intro i hi
        exact hFD i hi
    · rw [if_neg hln] at h
      injection h with h1 h2
      subst h2
      have hset : ∀ j, j < 0 + 1 → (v.elems.set 0 x).getD j default = x := by
        intro j hj
        have hj0 : j = 0 := by omega
        subst hj0
        exact getD_set_self (by omega)
      obtain ⟨hFL, hFD⟩ := vec_fill_loop_spec x default (n - 0) (v.elems.set 0 x) 0 n
        rfl (by rw [List.length_set]; omega) (by omega) hset
      refine ⟨hm, rfl, by dsimp only; omega, by dsimp only; rw [if_neg hcap], ?_, ?_⟩
      · dsimp only
        rw [hFL, List.length_set]
        exact hL
      · intro i hi
        exact hFD i hi

theorem vec_extend_ok (dst src : Vec α) (same a : Bool) (d1 : Vec α)
    (hd : Valid dst) (hs : Valid src)
    (h : vec_extend dst src same a = some (VecErr.OK, d1)) :
    d1.magic = VEC_MAGIC ∧ d1.elem_size = dst.elem_size ∧
    d1.len = dst.len + src.len ∧ d1.len ≤ d1.capacity ∧
    d1.elems.length = d1.capacity ∧ MIN_CAPACITY ≤ d1.capacity ∧
    d1.capacity ≤ MAX_CAPACITY := by
  obtain ⟨hdm, hdlen, hdmin, hdmax, hdL⟩ := hd
  obtain ⟨hsm, hslen, hsmin, hsmax, hsL⟩ := hs
  simp only [vec_extend, validate_ok dst hdm, validate_ok src hsm, ne_eq,
    not_true_eq_false, reduceCtorEq, ite_false] at h
  split at h
  · simp at h
  · split at h
    · simp at h
    · by_cases hgrow : (SIZE_T_MOD + dst.capacity - src.len) % SIZE_T_MOD < dst.len
      · rw [if_pos hgrow] at h
        rcases hres : vec_resize dst (dst.len + src.len) a with ⟨e, dr⟩
        rw [hres] at h
        match e with
        | VecErr.OK =>
          obtain ⟨r1, r2, r3, r4, r5, r6, r7, r8⟩ :=
            vec_resize_ok dst (dst.len + src.len) a dr hdm hres
          have hrlen : dr.len = dst.len := by
            rw [r6]
            omega
          dsimp only at h
          rw [if_pos (show dr.len + src.len ≤ dr.elems.length by rw [r7, hrlen])] at h
          injection h with h1
          injection h1 with h1a h1b
          subst h1b
          refine ⟨r1 ▸ hdm, r2, ?_, ?_, ?_, ?_, ?_⟩
          · dsimp only
            omega
          · dsimp only
            rw [r3]
            omega
          · dsimp only
            simp only [List.length_append, List.length_take, List.length_drop]
            rw [r3]
            omega
          · dsimp only
            rw [r3]
            simp only [MIN_CAPACITY] at r4 ⊢
            omega
          · dsimp only
            rw [r3]
            omega
        | VecErr.IOOB => simp at h
        | VecErr.NULLPTR => simp at h
        | VecErr.INVPTR => simp at h
        | VecErr.INVOP => simp at h
        | VecErr.NOMEM => simp at h
      · rw [if_neg hgrow] at h
        dsimp only at h
        split at h
        · rename_i hfits
          injection h with h1
          injection h1 with h1a h1b
          subst h1b
          have hsub : (SIZE_T_MOD + dst.capacity - src.len) % SIZE_T_MOD =
              dst.capacity - src.len := by
            have hsrc : src.len ≤ dst.capacity := by omega
            rw [Nat.add_sub_assoc hsrc, Nat.add_mod_left,
              Nat.mod_eq_of_lt (by simp only [SIZE_T_MOD, MAX_CAPACITY] at hdmax ⊢; omega)]
          refine ⟨hdm, rfl, rfl, ?_, ?_, hdmin, hdmax⟩
          · dsimp only
            rw [hsub] at hgrow
            omega
          · dsimp only
            simp only [List.length_append, List.length_take, List.length_drop]
            rw [hsub] at hgrow
            omega
        · simp at h

theorem vec_resize_ne_ok (v : Vec α) (c : Nat) (a : Bool) (e : VecErr) (w : Vec α)
    (h : vec_resize v c a = (e, w)) (he : e ≠ VecErr.OK) : w = v := by
  simp only [vec_resize] at h
  split at h
  · injection h with h1 h2
    exact h2.symm
  · split at h
    · injection h with h1 h2
      exact h2.symm
    · unfold vec_reallocate at h
      split at h
      · injection h with h1 h2
        exact h2.symm
      · injection h with h1 h2
        exact absurd h1.symm he

theorem vec_shrink_to_fit_ne_ok (v : Vec α) (a : Bool) (e : VecErr) (w : Vec α)
    (h : vec_shrink_to_fit v a = (e, w)) (he : e ≠ VecErr.OK) : w = v := by
  simp only [vec_shrink_to_fit] at h
  split at h
  · injection h with h1 h2
    exact h2.symm
  · split at h
    · injection h with h1 h2
      exact h2.symm
    · split at h
      · injection h with h1 h2
        exact absurd h1.symm he
      · unfold vec_reallocate at h
        split at h
        · injection h with h1 h2
          exact h2.symm
        · injection h with h1 h2
          exact absurd h1.symm he

theorem vec_clear_ne_ok (v : Vec α) (a : Bool) (e : VecErr) (w : Vec α)
    (h : vec_clear v a = (e, w)) (he : e ≠ VecErr.OK) : w = v := by
  simp only [vec_clear] at h
  split at h
  · injection h with h1 h2
    exact h2.symm
  · split at h
    · injection h with h1 h2
      exact absurd h1.symm he
    · split at h
      · injection h with h1 h2
        exact h2.symm
      · injection h with h1 h2
        exact absurd h1.symm he

theorem vec_set_ne_ok (v : Vec α) (idx : Nat) (x : α) (e : VecErr) (w : Vec α)
    (r : Option α)
    (h : vec_set v idx x = (e, w, r)) (he : e ≠ VecErr.OK) : w = v := by
  simp only [vec_set] at h
  split at h
  · injection h with h1 h2
    injection h2 with h2a h2b
    exact h2a.symm
  · split at h
    · injection h with h1 h2
      injection h2 with h2a h2b
      exact h2a.symm
    · injection h with h1 h2
      exact absurd h1.symm he

theorem vec_swap_ne_ok (v : Vec α) (idx1 idx2 : Nat) (a : Bool) (e : VecErr) (w : Vec α)
    (h : vec_swap v idx1 idx2 a = (e, w)) (he : e ≠ VecErr.OK) : w = v := by
  simp only [vec_swap] at h
  split at h
  · injection h with h1 h2
    exact h2.symm
  · split at h
    · injection h with h1 h2
      exact h2.symm
    · split at h
      · injection h with h1 h2
        exact h2.symm
      · split at h
        · injection h with h1 h2
          exact h2.symm
        · injection h with h1 h2
          exact absurd h1.symm he

theorem vec_insert_ne_ok (v : Vec α) (idx : Nat) (x : α) (a : Bool) (e : VecErr)
    (w : Vec α)
    (h : vec_insert v idx x a = (e, w)) (he : e ≠ VecErr.OK) : w = v := by
  simp only [vec_insert] at h
  split at h
  · injection h with h1 h2
    exact h2.symm
  · split at h
    · injection h with h1 h2
      exact h2.symm
    · rcases hck : vec_check_grow v a with ⟨e2, g⟩
      rw [hck] at h
      match e2 with
      | VecErr.OK =>
        dsimp only at h
        injection h with h1 h2
        exact absurd h1.symm he
      | VecErr.IOOB =>
        dsimp only at h
        injection h with h1 h2
        subst h2
        exact vec_check_grow_ne_ok v a _ _ hck (by simp)
      | VecErr.NULLPTR =>
        dsimp only at h
        injection h with h1 h2
        subst h2
        exact vec_check_grow_ne_ok v a _ _ hck (by simp)
      | VecErr.INVPTR =>
        dsimp only at h
        injection h with h1 h2
        subst h2
        exact vec_check_grow_ne_ok v a _ _ hck (by simp)
      | VecErr.INVOP =>
        dsimp only at h
        injection h with h1 h2
        subst h2
        exact vec_check_grow_ne_ok v a _ _ hck (by simp)
      | VecErr.NOMEM =>
        dsimp only at h
        injection h with h1 h2
        subst h2
        exact vec_check_grow_ne_ok v a _ _ hck (by simp)

theorem vec_remove_fail (v : Vec α) (idx : Nat) (a sh : Bool) (e : VecErr)
    (w : Vec α) (r : Option α)
    (h : vec_remove v idx a sh = (e, w, r)) (he : e ≠ VecErr.OK)
    (hnm : e ≠ VecErr.NOMEM) : w = v := by
  simp only [vec_remove] at h
  split at h
  · injection h with h1 h2
    injection h2 with h2a h2b
    exact h2a.symm
  · split at h
    · injection h with h1 h2
      injection h2 with h2a h2b
      exact h2a.symm
    · cases sh with
      | false =>
        rw [if_neg (by decide : ¬ (false = true))] at h
        injection h with h1 h2
        exact absurd h1.symm he
      | true =>
        rw [if_pos rfl] at h
        injection h with h1 h2
        injection h2 with h2a h2b
        have hnm2 := (vec_check_shrink_ne_ok _ a _ _ rfl
          (fun hh => he (h1.symm.trans hh))).2
        exact absurd (h1.symm.trans hnm2) hnm

theorem vec_pop_fail (v : Vec α) (a sh : Bool) (e : VecErr)
    (w : Vec α) (r : Option α)
    (h : vec_pop v a sh = (e, w, r)) (he : e ≠ VecErr.OK)
    (hnm : e ≠ VecErr.NOMEM) : w = v := by
  simp only [vec_pop] at h
  split at h
  · injection h with h1 h2
    injection h2 with h2a h2b
    exact h2a.symm
  · exact vec_remove_fail v _ a sh e w r h he hnm

theorem vec_truncate_fail (v : Vec α) (n : Nat) (a sh : Bool) (e : VecErr) (w : Vec α)
    (h : vec_truncate v n a sh = (e, w)) (he : e ≠ VecErr.OK)
    (hnm : e ≠ VecErr.NOMEM) : w = v := by
  simp only [vec_truncate] at h
  split at h
  · injection h with h1 h2
    exact h2.symm
  · split at h
    · injection h with h1 h2
      exact absurd h1.symm he
    · cases sh with
      | false =>
        rw [if_neg (by decide : ¬ (false = true))] at h
        injection h with h1 h2
        exact absurd h1.symm he
      | true =>
        rw [if_pos rfl] at h
        exact absurd (vec_check_shrink_ne_ok _ a _ _ h he).2 hnm

theorem vec_fill_ne_ok (v : Vec α) (x : α) (n : Nat) (a : Bool) (e : VecErr) (w : Vec α)
    (h : vec_fill v x n a = (e, w)) (he : e ≠ VecErr.OK) : w = v := by
  simp only [vec_fill] at h
  split at h
  · injection h with h1 h2
    exact h2.symm
  · split at h
    · injection h with h1 h2
      exact absurd h1.symm he
    · by_cases hcap : v.capacity < n
      · rw [if_pos hcap] at h
        rcases hres : vec_resize v n a with ⟨e2, vr⟩
        rw [hres] at h
        match e2 with
        | VecErr.OK =>
          dsimp only at h
          injection h with h1 h2
          exact absurd h1.symm he
        | VecErr.IOOB =>
          dsimp only at h
          injection h with h1 h2
          subst h2
          exact vec_resize_ne_ok v n a _ _ hres (by simp)
        | VecErr.NULLPTR =>
          dsimp only at h
          injection h with h1 h2
          subst h2
          exact vec_resize_ne_ok v n a _ _ hres (by simp)
        | VecErr.INVPTR =>
          dsimp only at h
          injection h with h1 h2
          subst h2
          exact vec_resize_ne_ok v n a _ _ hres (by simp)
        | VecErr.INVOP =>
          dsimp only at h
          injection h with h1 h2
          subst h2
          exact vec_resize_ne_ok v n a _ _ hres (by simp)
        | VecErr.NOMEM =>
          dsimp only at h
          injection h with h1 h2
          subst h2
          exact vec_resize_ne_ok v n a _ _ hres (by simp)
      · rw [if_neg hcap] at h
        dsimp only at h
        injection h with h1 h2
        exact absurd h1.symm he

theorem vec_clone_ne_ok (src : Vec α) (dst : Option (Vec α)) (same a : Bool)
    (e : VecErr) (s : Option (Vec α))
    (h : vec_clone src dst same a = (e, s)) (he : e ≠ VecErr.OK) : s = dst := by
  simp only [vec_clone] at h
  split at h
  · injection h with h1 h2
    exact h2.symm
  · match dst with
    | none =>
      dsimp only at h
      rcases hmk : vec_make (none : Option (Vec α)) src.elem_size src.len a with ⟨e2, s2⟩
      rw [hmk] at h
      match e2, s2 with
      | VecErr.OK, some clone =>
        dsimp only at h
        injection h with h1 h2
        exact absurd h1.symm he
      | VecErr.OK, none => exact (vec_make_none_ok_ne _ _ _ hmk).elim
      | VecErr.IOOB, s2 =>
        dsimp only at h
        injection h with h1 h2
        exact h2.symm
      | VecErr.NULLPTR, s2 =>
        dsimp only at h
        injection h with h1 h2
        exact h2.symm
      | VecErr.INVPTR, s2 =>
        dsimp only at h
        injection h with h1 h2
        exact h2.symm
      | VecErr.INVOP, s2 =>
        dsimp only at h
        injection h with h1 h2
        exact h2.symm
      | VecErr.NOMEM, s2 =>
        dsimp only at h
        injection h with h1 h2
        exact h2.symm
    | some d0 =>
      dsimp only at h
      split at h
      · injection h with h1 h2
        exact h2.symm
      · split at h
        · injection h with h1 h2
          exact h2.symm
        · split at h
          · rcases hmk : vec_make (none : Option (Vec α)) src.elem_size src.len a
              with ⟨e2, s2⟩
            rw [hmk] at h
            match e2, s2 with
            | VecErr.OK, some clone =>
              dsimp only at h
              injection h with h1 h2
              exact absurd h1.symm he
            | VecErr.OK, none => exact (vec_make_none_ok_ne _ _ _ hmk).elim
            | VecErr.IOOB, s2 =>
              dsimp only at h
              injection h with h1 h2
              exact h2.symm
            | VecErr.NULLPTR, s2 =>
              dsimp only at h
              injection h with h1 h2
              exact h2.symm
            | VecErr.INVPTR, s2 =>
              dsimp only at h
              injection h with h1 h2
              exact h2.symm
            | VecErr.INVOP, s2 =>
              dsimp only at h
              injection h with h1 h2
              exact h2.symm
            | VecErr.NOMEM, s2 =>
              dsimp only at h
              injection h with h1 h2
              exact h2.symm
          · injection h with h1 h2
            exact absurd h1.symm he

theorem vec_destroy_ne_ok (slot : Option (Vec α)) (e : VecErr) (s : Option (Vec α))
    (h : vec_destroy slot = (e, s)) (he : e ≠ VecErr.OK) : s = slot := by
  simp only [vec_destroy] at h
  match slot with
  | none =>
    injection h with h1 h2
    exact h2.symm
  | some v =>
    dsimp only at h
    split at h
    · injection h with h1 h2
      exact h2.symm
    · injection h with h1 h2
      exact absurd h1.symm he

theorem vec_extend_ne_ok (dst src : Vec α) (same a : Bool) (e : VecErr) (w : Vec α)
    (h : vec_extend dst src same a = some (e, w)) (he : e ≠ VecErr.OK) : w = dst := by
  simp only [vec_extend] at h
  split at h
  · injection h with h1
    injection h1 with h1a h1b
    exact h1b.symm
  · split at h
    · injection h with h1
      injection h1 with h1a h1b
      exact h1b.symm
    · split at h
      · injection h with h1
        injection h1 with h1a h1b
        exact h1b.symm
      · split at h
        · injection h with h1
          injection h1 with h1a h1b
          exact h1b.symm
        · rcases hgrow : (if (SIZE_T_MOD + dst.capacity - src.len) % SIZE_T_MOD < dst.len
            then vec_resize dst (dst.len + src.len) a
            else (VecErr.OK, dst)) with ⟨e2, d1⟩
          rw [hgrow] at h
          match e2 with
          | VecErr.OK =>
            dsimp only at h
            split at h
            · injection h with h1
              injection h1 with h1a h1b
              exact absurd h1a.symm he
            · exact (Option.noConfusion h)
          | VecErr.IOOB =>
            dsimp only at h
            injection h with h1
            injection h1 with h1a h1b
            subst h1b
            split at hgrow
            · exact vec_resize_ne_ok dst _ a _ _ hgrow (by simp)
            · injection hgrow with hg1 hg2
              exact hg2.symm
          | VecErr.NULLPTR =>
            dsimp only at h
            injection h with h1
            injection h1 with h1a h1b
            subst h1b
            split at hgrow
            · exact vec_resize_ne_ok dst _ a _ _ hgrow (by simp)
            · injection hgrow with hg1 hg2
              exact hg2.symm
          | VecErr.INVPTR =>
            dsimp only at h
            injection h with h1
            injection h1 with h1a h1b
            subst h1b
            split at hgrow
            · exact vec_resize_ne_ok dst _ a _ _ hgrow (by simp)
            · injection hgrow with hg1 hg2
              exact hg2.symm
          | VecErr.INVOP =>
            dsimp only at h
            injection h with h1
            injection h1 with h1a h1b
            subst h1b
            split at hgrow
            · exact vec_resize_ne_ok dst _ a _ _ hgrow (by simp)
            · injection hgrow with hg1 hg2
              exact hg2.symm
          | VecErr.NOMEM =>
            dsimp only at h
            injection h with h1
            injection h1 with h1a h1b
            subst h1b
            split at hgrow
            · exact vec_resize_ne_ok dst _ a _ _ hgrow (by simp)
            · injection hgrow with hg1 hg2
              exact hg2.symm

theorem runOp_ok_invariant (op : Op α) (v : Vec α) (a sh : Bool) (v1 : Vec α)
    (hv : Valid v) (hop : OpValid op)
    (h : runOp op v a sh = some (VecErr.OK, some v1)) :
    WeakInv v1 ∧ (op ≠ Op.shrinkToFit → MIN_CAPACITY ≤ v1.capacity) := by
  have hvc := hv
  obtain ⟨hm, hlen, hmin, hmax, hL⟩ := hvc
  cases op with
  | resizeTo c =>
    simp only [runOp] at h
    injection h with h1
    injection h1 with h1a h1b
    injection h1b with h1c
    have hr : vec_resize v c a = (VecErr.OK, v1) := by
      rw [Prod.ext_iff]
      exact ⟨h1a, h1c⟩
    obtain ⟨r1, r2, r3, r4, r5, r6, r7, r8⟩ := vec_resize_ok v c a v1 hm hr
    exact ⟨⟨by omega, by omega, by omega⟩, fun _ => by omega⟩
  | shrinkToFit =>
    simp only [runOp] at h
    injection h with h1
    injection h1 with h1a h1b
    injection h1b with h1c
    have hr : vec_shrink_to_fit v a = (VecErr.OK, v1) := by
      rw [Prod.ext_iff]
      exact ⟨h1a, h1c⟩
    obtain ⟨s1, s2, s3, s4, s5, s6, s7⟩ := vec_shrink_to_fit_ok v a v1 hm hlen hL hr
    exact ⟨⟨s5, by omega, s7⟩, fun hne => absurd rfl hne⟩
  | clear =>
    simp only [runOp] at h
    injection h with h1
    injection h1 with h1a h1b
    injection h1b with h1c
    have hr : vec_clear v a = (VecErr.OK, v1) := by
      rw [Prod.ext_iff]
      exact ⟨h1a, h1c⟩
    obtain ⟨c1, c2, c3, c4, c5, c6⟩ := vec_clear_ok v a v1 hm hmin hmax hL hr
    exact ⟨⟨by omega, by omega, c6⟩, fun _ => c4⟩
  | cloneFrom src same =>
    simp only [runOp] at h
    injection h with h1
    injection h1 with h1a h1b
    have hr : vec_clone src (some v) same a = (VecErr.OK, some v1) := by
      rw [Prod.ext_iff]
      exact ⟨h1a, h1b⟩
    have hsv : Valid src := hop
    obtain ⟨hsm, hslen, hsmin, hsmax, hsL⟩ := hsv
    obtain ⟨c1, c2, c3, c4, c5, c6, c7, c8⟩ := vec_clone_ok src (some v) same a v1 hop
      (by
        intro d0 hd0
        injection hd0 with hd0e
        subst hd0e
        exact hL) hr
    by_cases hcs : v.capacity < src.len
    · have hcap := c7 (Or.inr ⟨v, rfl, hcs⟩)
      refine ⟨⟨by omega, ?_, c5⟩, fun _ => by
        rw [hcap]
        exact le_max_left _ _⟩
      rw [hcap]
      simp only [MIN_CAPACITY, MAX_CAPACITY] at hsmax hslen ⊢
      omega
    · have hcap := c8 v rfl hcs
      exact ⟨⟨by omega, by omega, c5⟩, fun _ => by omega⟩
  | destroy =>
    simp only [runOp, vec_destroy] at h
    split at h
    · rename_i hval
      dsimp only at h
      injection h with h1
      injection h1 with h1a h1b
      exact absurd h1a hval
    · simp at h
  | set idx x =>
    simp only [runOp] at h
    injection h with h1
    injection h1 with h1a h1b
    injection h1b with h1c
    have hr : vec_set v idx x = (VecErr.OK, v1, (vec_set v idx x).2.2) := by
      rw [Prod.ext_iff]
      refine ⟨h1a, ?_⟩
      rw [Prod.ext_iff]
      exact ⟨h1c, rfl⟩
    obtain ⟨c1, c2, c3, c4, c5⟩ := vec_set_ok v idx x v1 _ hm hr
    exact ⟨⟨by omega, by omega, by omega⟩, fun _ => by omega⟩
  | swap i j =>
    simp only [runOp] at h
    injection h with h1
    injection h1 with h1a h1b
    injection h1b with h1c
    have hr : vec_swap v i j a = (VecErr.OK, v1) := by
      rw [Prod.ext_iff]
      exact ⟨h1a, h1c⟩
    obtain ⟨c1, c2, c3, c4, c5⟩ := vec_swap_ok v i j a v1 hm hr
    exact ⟨⟨by omega, by omega, by omega⟩, fun _ => by omega⟩
  | insert idx x =>
    simp only [runOp] at h
    injection h with h1
    injection h1 with h1a h1b
    injection h1b with h1c
    have hr : vec_insert v idx x a = (VecErr.OK, v1) := by
      rw [Prod.ext_iff]
      exact ⟨h1a, h1c⟩
    obtain ⟨c1, c2, c3, c4, c5, c6, c7, c8, c9⟩ := vec_insert_ok v idx x a v1 hv hr
    exact ⟨⟨c5, c7, c4⟩, fun _ => c6⟩
  | remove idx =>
    simp only [runOp] at h
    injection h with h1
    injection h1 with h1a h1b
    injection h1b with h1c
    have hr : vec_remove v idx a sh = (VecErr.OK, v1, (vec_remove v idx a sh).2.2) := by
      rw [Prod.ext_iff]
      refine ⟨h1a, ?_⟩
      rw [Prod.ext_iff]
      exact ⟨h1c, rfl⟩
    obtain ⟨c1, c2, c3, c4, c5, c6, c7, c8, c9⟩ := vec_remove_ok v idx a sh v1 _ hv hr
    exact ⟨⟨c6, c8, c5⟩, fun _ => c7⟩
  | push x =>
    simp only [runOp, vec_push] at h
    injection h with h1
    injection h1 with h1a h1b
    injection h1b with h1c
    have hr : vec_insert v v.len x a = (VecErr.OK, v1) := by
      rw [Prod.ext_iff]
      exact ⟨h1a, h1c⟩
    obtain ⟨c1, c2, c3, c4, c5, c6, c7, c8, c9⟩ := vec_insert_ok v v.len x a v1 hv hr
    exact ⟨⟨c5, c7, c4⟩, fun _ => c6⟩
  | pop =>
    simp only [runOp, vec_pop] at h
    split at h
    · injection h with h1
      injection h1 with h1a h1b
      exact absurd h1a.symm (by simp)
    · injection h with h1
      injection h1 with h1a h1b
      injection h1b with h1c
      have hr : vec_remove v (v.len - 1) a sh =
          (VecErr.OK, v1, (vec_remove v (v.len - 1) a sh).2.2) := by
        rw [Prod.ext_iff]
        refine ⟨h1a, ?_⟩
        rw [Prod.ext_iff]
        exact ⟨h1c, rfl⟩
      obtain ⟨c1, c2, c3, c4, c5, c6, c7, c8, c9⟩ :=
        vec_remove_ok v (v.len - 1) a sh v1 _ hv hr
      exact ⟨⟨c6, c8, c5⟩, fun _ => c7⟩
  | fill x n =>
    simp only [runOp] at h
    injection h with h1
    injection h1 with h1a h1b
    injection h1b with h1c
    have hr : vec_fill v x n a = (VecErr.OK, v1) := by
      rw [Prod.ext_iff]
      exact ⟨h1a, h1c⟩
    by_cases hn0 : n = 0
    · subst hn0
      simp only [vec_fill, validate_ok v hm, ne_eq, not_true_eq_false,
        reduceCtorEq, ite_false, if_pos rfl] at hr
      injection hr with hr1 hr2
      subst hr2
      exact ⟨⟨hlen, hmax, hL⟩, fun _ => hmin⟩
    · obtain ⟨c1, c2, c3, c4, c5, c6⟩ := vec_fill_ok v x n a v1 hv (by omega) hr
      by_cases hcn : v.capacity < n
      · rw [if_pos hcn] at c4
        refine ⟨⟨by omega, ?_, c5⟩, fun _ => by omega⟩
        have : ¬ (n ≤ MIN_CAPACITY ∨ n > MAX_CAPACITY) := by
          intro hcon
          rcases hcon with hcon | hcon
          · simp only [MIN_CAPACITY] at hcon hmin
            omega
          · have h9 : vec_fill v x n a = (VecErr.INVOP, v) := by
              simp only [vec_fill, validate_ok v hm, ne_eq, not_true_eq_false,
                reduceCtorEq, ite_false, if_neg hn0, if_pos hcn, vec_resize,
                if_pos (Or.inr hcon)]
            rw [h9] at hr
            simp at hr
        omega
      · rw [if_neg hcn] at c4
        exact ⟨⟨by omega, by omega, c5⟩, fun _ => by omega⟩
  | truncate n =>
    simp only [runOp] at h
    injection h with h1
    injection h1 with h1a h1b
    injection h1b with h1c
    have hr : vec_truncate v n a sh = (VecErr.OK, v1) := by
      rw [Prod.ext_iff]
      exact ⟨h1a, h1c⟩
    obtain ⟨c1, c2, c3, c4, c5, c6, c7⟩ := vec_truncate_ok v n a sh v1 hv hr
    exact ⟨⟨c5, c7, c4⟩, fun _ => c6⟩
  | extendBy src same =>
    simp only [runOp] at h
    rcases hx : vec_extend v src same a with _ | ⟨e2, w⟩
    · rw [hx] at h
      simp at h
    · rw [hx] at h
      dsimp only at h
      injection h with h1
      injection h1 with h1a h1b
      injection h1b with h1c
      subst h1a
      subst h1c
      obtain ⟨c1, c2, c3, c4, c5, c6, c7⟩ := vec_extend_ok v src same a _ hv hop hx
      exact ⟨⟨c4, c7, c5⟩, fun _ => c6⟩
  | get idx =>
    simp only [runOp] at h
    injection h with h1
    injection h1 with h1a h1b
    injection h1b with h1c
    subst h1c
    exact ⟨⟨hlen, hmax, hL⟩, fun _ => hmin⟩
  | first =>
    simp only [runOp] at h
    injection h with h1
    injection h1 with h1a h1b
    injection h1b with h1c
    subst h1c
    exact ⟨⟨hlen, hmax, hL⟩, fun _ => hmin⟩
  | last =>
    simp only [runOp] at h
    injection h with h1
    injection h1 with h1a h1b
    injection h1b with h1c
    subst h1c
    exact ⟨⟨hlen, hmax, hL⟩, fun _ => hmin⟩
  | lenOp =>
    simp only [runOp] at h
    injection h with h1
    injection h1 with h1a h1b
    injection h1b with h1c
    subst h1c
    exact ⟨⟨hlen, hmax, hL⟩, fun _ => hmin⟩
  | capOp =>
    simp only [runOp] at h
    injection h with h1
    injection h1 with h1a h1b
    injection h1b with h1c
    subst h1c
    exact ⟨⟨hlen, hmax, hL⟩, fun _ => hmin⟩
  | spaceOp =>
    simp only [runOp] at h
    injection h with h1
    injection h1 with h1a h1b
    injection h1b with h1c
    subst h1c
    exact ⟨⟨hlen, hmax, hL⟩, fun _ => hmin⟩
  | emptyOp =>
    simp only [runOp] at h
    injection h with h1
    injection h1 with h1a h1b
    injection h1b with h1c
    subst h1c
    exact ⟨⟨hlen, hmax, hL⟩, fun _ => hmin⟩

theorem runOp_fail (op : Op α) (v : Vec α) (a sh : Bool) (e : VecErr)
    (s : Option (Vec α))
    (h : runOp op v a sh = some (e, s)) (he : e ≠ VecErr.OK) :
    (shrinkExempt op = false → s = some v) ∧ (e ≠ VecErr.NOMEM → s = some v) := by
  cases op with
  | resizeTo c =>
    simp only [runOp] at h
    injection h with h1
    injection h1 with h1a h1b
    have hw := vec_resize_ne_ok v c a _ _ rfl (fun hh => he (h1a.symm.trans hh))
    have hs : s = some v := by
      rw [← h1b]
      exact congrArg some hw
    exact ⟨fun _ => hs, fun _ => hs⟩
  | shrinkToFit =>
    simp only [runOp] at h
    injection h with h1
    injection h1 with h1a h1b
    have hw := vec_shrink_to_fit_ne_ok v a _ _ rfl (fun hh => he (h1a.symm.trans hh))
    have hs : s = some v := by
      rw [← h1b]
      exact congrArg some hw
    exact ⟨fun _ => hs, fun _ => hs⟩
  | clear =>
    simp only [runOp] at h
    injection h with h1
    injection h1 with h1a h1b
    have hw := vec_clear_ne_ok v a _ _ rfl (fun hh => he (h1a.symm.trans hh))
    have hs : s = some v := by
      rw [← h1b]
      exact congrArg some hw
    exact ⟨fun _ => hs, fun _ => hs⟩
  | cloneFrom src same =>
    simp only [runOp] at h
    injection h with h1
    injection h1 with h1a h1b
    have hw := vec_clone_ne_ok src (some v) same a _ _ rfl
      (fun hh => he (h1a.symm.trans hh))
    have hs : s = some v := by
      rw [← h1b]
      exact hw
    exact ⟨fun _ => hs, fun _ => hs⟩
  | destroy =>
    simp only [runOp] at h
    injection h with h1
    injection h1 with h1a h1b
    have hw := vec_destroy_ne_ok (some v) _ _ rfl (fun hh => he (h1a.symm.trans hh))
    have hs : s = some v := by
      rw [← h1b]
      exact hw
    exact ⟨fun _ => hs, fun _ => hs⟩
  | set idx x =>
    simp only [runOp] at h
    injection h with h1
    injection h1 with h1a h1b
    have hw := vec_set_ne_ok v idx x _ _ _ rfl (fun hh => he (h1a.symm.trans hh))
    have hs : s = some v := by
      rw [← h1b]
      exact congrArg some hw
    exact ⟨fun _ => hs, fun _ => hs⟩
  | swap i j =>
    simp only [runOp] at h
    injection h with h1
    injection h1 with h1a h1b
    have hw := vec_swap_ne_ok v i j a _ _ rfl (fun hh => he (h1a.symm.trans hh))
    have hs : s = some v := by
      rw [← h1b]
      exact congrArg some hw
    exact ⟨fun _ => hs, fun _ => hs⟩
  | insert idx x =>
    simp only [runOp] at h
    injection h with h1
    injection h1 with h1a h1b
    have hw := vec_insert_ne_ok v idx x a _ _ rfl (fun hh => he (h1a.symm.trans hh))
    have hs : s = some v := by
      rw [← h1b]
      exact congrArg some hw
    exact ⟨fun _ => hs, fun _ => hs⟩
  | remove idx =>
    simp only [runOp] at h
    injection h with h1
    injection h1 with h1a h1b
    refine ⟨fun hfalse => by simp [shrinkExempt] at hfalse, fun hnm => ?_⟩
    have hw := vec_remove_fail v idx a sh _ _ _ rfl
      (fun hh => he (h1a.symm.trans hh)) (fun hh => hnm (h1a.symm.trans hh))
    rw [← h1b]
    exact congrArg some hw
  | push x =>
    simp only [runOp, vec_push] at h
    injection h with h1
    injection h1 with h1a h1b
    have hw := vec_insert_ne_ok v v.len x a _ _ rfl (fun hh => he (h1a.symm.trans hh))
    have hs : s = some v := by
      rw [← h1b]
      exact congrArg some hw
    exact ⟨fun _ => hs, fun _ => hs⟩
  | pop =>
    simp only [runOp] at h
    injection h with h1
    injection h1 with h1a h1b
    refine ⟨fun hfalse => by simp [shrinkExempt] at hfalse, fun hnm => ?_⟩
    have hw := vec_pop_fail v a sh _ _ _ rfl
      (fun hh => he (h1a.symm.trans hh)) (fun hh => hnm (h1a.symm.trans hh))
    rw [← h1b]
    exact congrArg some hw
  | fill x n =>
    simp only [runOp] at h
    injection h with h1
    injection h1 with h1a h1b
    have hw := vec_fill_ne_ok v x n a _ _ rfl (fun hh => he (h1a.symm.trans hh))
    have hs : s = some v := by
      rw [← h1b]
      exact congrArg some hw
    exact ⟨fun _ => hs, fun _ => hs⟩
  | truncate n =>
    simp only [runOp] at h
    injection h with h1
    injection h1 with h1a h1b
    refine ⟨fun hfalse => by simp [shrinkExempt] at hfalse, fun hnm => ?_⟩
    have hw := vec_truncate_fail v n a sh _ _ rfl
      (fun hh => he (h1a.symm.trans hh)) (fun hh => hnm (h1a.symm.trans hh))
    rw [← h1b]
    exact congrArg some hw
  | extendBy src same =>
    simp only [runOp] at h
    rcases hx : vec_extend v src same a with _ | ⟨e2, w⟩
    · rw [hx] at h
      simp at h
    · rw [hx] at h
      dsimp only at h
      injection h with h1
      injection h1 with h1a h1b
      have hw := vec_extend_ne_ok v src same a _ _ hx
        (fun hh => he (h1a.symm.trans hh))
      have hs : s = some v := by
        rw [← h1b]
        exact congrArg some hw
      exact ⟨fun _ => hs, fun _ => hs⟩
  | get idx =>
    simp only [runOp] at h
    injection h with h1
    injection h1 with h1a h1b
    exact ⟨fun _ => h1b.symm, fun _ => h1b.symm⟩
  | first =>
    simp only [runOp] at h
    injection h with h1
    injection h1 with h1a h1b
    exact ⟨fun _ => h1b.symm, fun _ => h1b.symm⟩
  | last =>
    simp only [runOp] at h
    injection h with h1
    injection h1 with h1a h1b
    exact ⟨fun _ => h1b.symm, fun _ => h1b.symm⟩
  | lenOp =>
    simp only [runOp] at h
    injection h with h1
    injection h1 with h1a h1b
    exact ⟨fun _ => h1b.symm, fun _ => h1b.symm⟩
  | capOp =>
    simp only [runOp] at h
    injection h with h1
    injection h1 with h1a h1b
    exact ⟨fun _ => h1b.symm, fun _ => h1b.symm⟩
  | spaceOp =>
    simp only [runOp] at h
    injection h with h1
    injection h1 with h1a h1b
    exact ⟨fun _ => h1b.symm, fun _ => h1b.symm⟩
  | emptyOp =>
    simp only [runOp] at h
    injection h with h1
    injection h1 with h1a h1b
    exact ⟨fun _ => h1b.symm, fun _ => h1b.symm⟩

theorem push_pop_roundtrip (v v1 : Vec α) (x : α) (hv : Valid v)
    (h : vec_push v x true = (VecErr.OK, v1)) :
    (vec_pop v1 true true).1 = VecErr.OK ∧
    (vec_pop v1 true true).2.2 = some x ∧
    (vec_pop v1 true true).2.1.len = v.len := by
  obtain ⟨c1, c2, c3, c4, c5, c6, c7, c8, c9⟩ := vec_insert_ok v v.len x true v1 hv h
  have hpop : vec_pop v1 true true =
      ((vec_check_shrink { v1 with len := v1.len - 1 } true).1,
       (vec_check_shrink { v1 with len := v1.len - 1 } true).2,
       some (vec_write_var v1 (v1.len - 1))) := by
    unfold vec_pop
    rw [if_neg (by omega : ¬ v1.len = 0)]
    simp only [vec_remove, validate_ok v1 c1, ne_eq, not_true_eq_false,
      reduceCtorEq, ite_false]
    rw [if_neg (by omega : ¬ v1.len - 1 ≥ v1.len)]
    simp only [if_true]
  obtain ⟨k1, k2, k3, k4, k5, k6⟩ :=
    vec_check_shrink_true { v1 with len := v1.len - 1 } (by dsimp only; exact c4)
  refine ⟨?_, ?_, ?_⟩
  · rw [hpop]
    exact k1
  · rw [hpop]
    dsimp only
    simp only [vec_write_var]
    rw [show v1.len - 1 = v.len by omega]
    rw [c9]
  · rw [hpop]
    dsimp only
    rw [k4]
    dsimp only
    omega

/-- A freshly created container: `vec_make` with element size 1 and capacity
hint 16 produces length 0, capacity 16. -/
def fresh16 : Vec Nat :=
  { magic := VEC_MAGIC, len := 0, capacity := 16, elem_size := 1
    elems := List.replicate 16 0 }

/-- A live container with 3 elements in a 16-slot buffer. -/
def v3_16 : Vec Nat :=
  { magic := VEC_MAGIC, len := 3, capacity := 16, elem_size := 1
    elems := List.replicate 16 0 }

/-- A live container with 16 elements in a 64-slot buffer (quarter full). -/
def v16_64 : Vec Nat :=
  { magic := VEC_MAGIC, len := 16, capacity := 64, elem_size := 1
    elems := List.replicate 64 0 }

/-- The container `v16_64` after one removal, before any shrink. -/
def v15_64 : Vec Nat :=
  { magic := VEC_MAGIC, len := 15, capacity := 64, elem_size := 1
    elems := List.replicate 64 0 }

/-- A live container with 17 elements in a 64-slot buffer. -/
def v17_64 : Vec Nat :=
  { magic := VEC_MAGIC, len := 17, capacity := 64, elem_size := 1
    elems := List.replicate 64 0 }

/-- Extend destination for the overflow bug: 1 element, capacity 16. -/
def dstOv : Vec Nat :=
  { magic := VEC_MAGIC, len := 1, capacity := 16, elem_size := 1
    elems := List.replicate 16 9 }

/-- Extend source for the overflow bug: 20 elements, more than dstOv's whole
capacity. -/
def srcOv : Vec Nat :=
  { magic := VEC_MAGIC, len := 20, capacity := 32, elem_size := 1
    elems := List.replicate 32 5 }

/-- A clone source with 5 elements (below MIN_CAPACITY). -/
def src5 : Vec Nat :=
  { magic := VEC_MAGIC, len := 5, capacity := 16, elem_size := 1
    elems := [1, 2, 3, 4, 5] ++ List.replicate 11 0 }

/-- The destination produced by cloning `src5` into an empty slot. -/
def cl5 : Vec Nat :=
  { magic := VEC_MAGIC, len := 5, capacity := 16, elem_size := 1
    elems := [1, 2, 3, 4, 5] ++ List.replicate 11 0 }

/-- A full container at the capacity ceiling MAX_CAPACITY. -/
def vMax : Vec Nat :=
  { magic := VEC_MAGIC, len := MAX_CAPACITY, capacity := MAX_CAPACITY, elem_size := 1
    elems := List.replicate MAX_CAPACITY 0 }

/-- A non-null handle whose sentinel does not match VEC_MAGIC and whose
length field reads 0. -/
def badV : Vec Nat :=
  { magic := 0, len := 0, capacity := 16, elem_size := 1
    elems := List.replicate 16 0 }

/-- The result of pushing one element 5 onto `fresh16`. -/
def push5Out : Vec Nat :=
  { magic := VEC_MAGIC, len := 1, capacity := 16, elem_size := 1
    elems := 5 :: List.replicate 15 0 }

/-- The result of pushing one element 42 onto `fresh16`. -/
def push42 : Vec Nat :=
  { magic := VEC_MAGIC, len := 1, capacity := 16, elem_size := 1
    elems := 42 :: List.replicate 15 0 }

/-- The result of `vec_fill fresh16 7 5 true`. -/
def fillOut : Vec Nat :=
  { magic := VEC_MAGIC, len := 5, capacity := 16, elem_size := 1
    elems := List.replicate 5 7 ++ List.replicate 11 0 }

/-- Iterated pushes of the value 7 onto a fresh container, with every
allocation succeeding. -/
def pushIter : Nat → Vec Nat
  | 0 => fresh16
  | n + 1 => (vec_push (pushIter n) 7 true).2

/-- The branch condition under which vec_check_grow calls vec_reallocate:
a push from state `v` performs a reallocation exactly when this holds. -/
def growTriggers (v : Vec α) : Bool :=
  decide (v.capacity * GROWTH_POLICY ≤ v.len)

/-- C1 (amended): after every public operation that returns success on a live
container, `length ≤ capacity ≤ MAX_CAPACITY` holds and the buffer has
exactly `capacity` slots; `capacity ≥ MIN_CAPACITY` also holds for every
operation except shrink_to_fit, which reallocates to `capacity = length`
and therefore leaves `capacity < MIN_CAPACITY` whenever `0 < length <
MIN_CAPACITY`. -/
theorem C1_theorem (op : Op α) (v : Vec α) (a sh : Bool) (v1 : Vec α)
    (hv : Valid v) (hop : OpValid op)
    (h : runOp op v a sh = some (VecErr.OK, some v1)) :
    WeakInv v1 ∧ (op ≠ Op.shrinkToFit → MIN_CAPACITY ≤ v1.capacity) :=
  runOp_ok_invariant op v a sh v1 hv hop h

/-- C1 counterexample: on a valid container with length 3 and capacity 16,
shrink_to_fit succeeds and leaves capacity 3, below MIN_CAPACITY = 16,
refuting the claim that every successful operation keeps
`capacity ≥ MIN_CAPACITY`. -/
theorem C1_counterexample :
    Valid v3_16 ∧ (vec_shrink_to_fit v3_16 true).1 = VecErr.OK ∧
    (vec_shrink_to_fit v3_16 true).2.capacity < MIN_CAPACITY := by
  decide

/-- C1 witness: the amended theorem applied to a push of 5 onto a fresh
container. -/
theorem C1_witness :
    Valid fresh16 ∧
    (WeakInv push5Out ∧
      (Op.push (5 : Nat) ≠ Op.shrinkToFit → MIN_CAPACITY ≤ push5Out.capacity)) :=
  ⟨by decide,
    C1_theorem (Op.push 5) fresh16 true true push5Out (by decide) trivial (by decide)⟩

/-- C2 (code bug): with a valid destination of remaining space 15 and a valid
source of 20 elements (more than the destination's entire capacity), the
size_t expression `dst->capacity - src->len` wraps around, the growth branch
is skipped, and the final memcpy writes past the end of the destination's
allocation — undefined behavior (`none`), instead of the documented growth
and append. -/
theorem C2_theorem :
    Valid dstOv ∧ Valid srcOv ∧
    dstOv.capacity - dstOv.len < srcOv.len ∧
    dstOv.capacity < srcOv.len ∧
    vec_extend dstOv srcOv false true = none := by
  decide

/-- C3 (amended): every failing public operation leaves the container exactly
as before the call, except remove, pop and truncate: those apply the
removal or truncation first and only then run the automatic shrink, so they
can return OutOfMemory with the length change already applied. -/
theorem C3_theorem (op : Op α) (v : Vec α) (a sh : Bool) (e : VecErr)
    (s : Option (Vec α))
    (h : runOp op v a sh = some (e, s)) (he : e ≠ VecErr.OK) :
    (shrinkExempt op = false → s = some v) ∧ (e ≠ VecErr.NOMEM → s = some v) :=
  runOp_fail op v a sh e s h he

/-- C3 counterexample: on a valid container with length 16 and capacity 64,
remove of the last element with a failing shrink reallocation returns
OutOfMemory, yet the element has been removed (length 15), refuting the
claim that remove returning OutOfMemory leaves the container unchanged. -/
theorem C3_counterexample :
    Valid v16_64 ∧
    runOp (Op.remove 15) v16_64 false true = some (VecErr.NOMEM, some v15_64) ∧
    v15_64 ≠ v16_64 := by
  decide

/-- C3 witness: the amended theorem applied to an out-of-bounds set on a
fresh (empty) container, which fails with IndexOutOfBounds and leaves the
container unchanged. -/
theorem C3_witness :
    runOp (Op.set 0 (7 : Nat)) fresh16 true true = some (VecErr.IOOB, some fresh16) ∧
    ((shrinkExempt (Op.set 0 (7 : Nat)) = false → some fresh16 = some fresh16) ∧
      (VecErr.IOOB ≠ VecErr.NOMEM → some fresh16 = some fresh16)) :=
  ⟨by decide,
    C3_theorem (Op.set 0 7) fresh16 true true VecErr.IOOB (some fresh16)
      (by decide) (by decide)⟩

/-- C4: a fresh container (element capacity 16, length 0, as created by
vec_make) undergoes 17 successful pushes; the grow branch fires exactly
once, at the 17th push, and the final state has capacity 32 and
length 17. -/
theorem C4_theorem :
    vec_make (none : Option (Vec Nat)) 1 16 true = (VecErr.OK, some fresh16) ∧
    (∀ i, i < 17 → (vec_push (pushIter i) 7 true).1 = VecErr.OK) ∧
    (pushIter 17).len = 17 ∧ (pushIter 17).capacity = 32 ∧
    (List.range 17).countP (fun i => growTriggers (pushIter i)) = 1 ∧
    growTriggers (pushIter 16) = true := by
  decide

/-- C5: with automatic shrink enabled and allocation succeeding, one pop
from length 16 / capacity 64 reallocates down to capacity 32, while one pop
from length 17 / capacity 64 leaves capacity 64. -/
theorem C5_theorem :
    (vec_pop v16_64 true true).1 = VecErr.OK ∧
    (vec_pop v16_64 true true).2.1.capacity = 32 ∧
    (vec_pop v16_64 true true).2.1.len = 15 ∧
    (vec_pop v17_64 true true).1 = VecErr.OK ∧
    (vec_pop v17_64 true true).2.1.capacity = 64 ∧
    (vec_pop v17_64 true true).2.1.len = 16 := by
  decide

/-- C6: a successful fill(v, n) with n ≥ 1 on a valid container leaves every
position in [0, n) equal to v (the doubling-copy strategy matches a naive
copy), sets length to max(old length, n), and changes the capacity (to
exactly n) only when the old capacity was below n. -/
theorem C6_theorem (v : Vec α) (x : α) (n : Nat) (a : Bool) (v1 : Vec α)
    (hv : Valid v) (hn : 1 ≤ n)
    (h : vec_fill v x n a = (VecErr.OK, v1)) :
    v1.magic = VEC_MAGIC ∧ v1.elem_size = v.elem_size ∧
    v1.len = max v.len n ∧
    v1.capacity = (if v.capacity < n then n else v.capacity) ∧
    v1.elems.length = v1.capacity ∧
    (∀ i, i < n → v1.elems.getD i default = x) :=
  vec_fill_ok v x n a v1 hv hn h

/-- C6 witness: fill with value 7 and n = 5 on an empty capacity-16
container yields length 5, all five positions equal to 7, capacity 16. -/
theorem C6_witness :
    Valid fresh16 ∧ (1 : Nat) ≤ 5 ∧
    (fillOut.magic = VEC_MAGIC ∧ fillOut.elem_size = fresh16.elem_size ∧
      fillOut.len = max fresh16.len 5 ∧
      fillOut.capacity = (if fresh16.capacity < 5 then 5 else fresh16.capacity) ∧
      fillOut.elems.length = fillOut.capacity ∧
      (∀ i, i < 5 → fillOut.elems.getD i default = 7)) :=
  ⟨by decide, by decide,
    C6_theorem fresh16 7 5 true fillOut (by decide) (by decide) (by
      simp only [vec_fill, vec_validate_ptr, fresh16, fillOut]
      norm_num
      rw [vec_fill_loop]
      norm_num [memcpy_front]
      rw [vec_fill_loop]
      norm_num [memcpy_front]
      rw [vec_fill_loop]
      norm_num [memcpy_front]
      decide)⟩

/-- C7 (amended): whenever clone (re)allocates the destination (the slot is
empty or its capacity is below the source length), the resulting capacity is
`max MIN_CAPACITY src.len` — exactly src.len only when src.len ≥
MIN_CAPACITY, because vec_make clamps the hint up to the floor; in every
successful clone the destination's length equals the source's and the first
src.len elements coincide with the source's. -/
theorem C7_theorem (src : Vec α) (dst : Option (Vec α)) (same a : Bool) (d1 : Vec α)
    (hs : Valid src) (hwf : ∀ d0, dst = some d0 → d0.elems.length = d0.capacity)
    (h : vec_clone src dst same a = (VecErr.OK, some d1)) :
    d1.magic = VEC_MAGIC ∧ d1.elem_size = src.elem_size ∧ d1.len = src.len ∧
    src.len ≤ d1.capacity ∧ d1.elems.length = d1.capacity ∧
    (∀ i, i < src.len → d1.elems.getD i default = src.elems.getD i default) ∧
    ((dst = none ∨ ∃ d0, dst = some d0 ∧ d0.capacity < src.len) →
      d1.capacity = max MIN_CAPACITY src.len) ∧
    (∀ d0, dst = some d0 → ¬ d0.capacity < src.len →
      d1.capacity = d0.capacity ∧ d1.magic = d0.magic) :=
  vec_clone_ok src dst same a d1 hs hwf h

/-- C7 counterexample: cloning a 5-element source into an empty slot
allocates a destination of capacity 16 (the MIN_CAPACITY clamp in
vec_make), not capacity 5 = src.length as claimed. -/
theorem C7_counterexample :
    Valid src5 ∧
    vec_clone src5 (none : Option (Vec Nat)) false true = (VecErr.OK, some cl5) ∧
    cl5.capacity ≠ src5.len := by
  decide

/-- C7 witness: the amended theorem applied to cloning `src5` into an empty
slot. -/
theorem C7_witness :
    Valid src5 ∧
    (cl5.magic = VEC_MAGIC ∧ cl5.elem_size = src5.elem_size ∧ cl5.len = src5.len ∧
      src5.len ≤ cl5.capacity ∧ cl5.elems.length = cl5.capacity ∧
      (∀ i, i < src5.len → cl5.elems.getD i default = src5.elems.getD i default) ∧
      (((none : Option (Vec Nat)) = none ∨
          ∃ d0, (none : Option (Vec Nat)) = some d0 ∧ d0.capacity < src5.len) →
        cl5.capacity = max MIN_CAPACITY src5.len) ∧
      (∀ d0, (none : Option (Vec Nat)) = some d0 → ¬ d0.capacity < src5.len →
        cl5.capacity = d0.capacity ∧ cl5.magic = d0.magic)) :=
  ⟨by decide,
    C7_theorem src5 none false true cl5 (by decide) (fun d0 hd => nomatch hd)
      (by decide)⟩

/-- C8 (code bug): vec_push and vec_last evaluate `vec->len` before any
validation runs, so a null handle is dereferenced (undefined behavior,
`none`) instead of returning NULLPTR as their own documentation states; and
vec_pop checks emptiness before the sentinel, so a non-null handle with a
corrupted sentinel and length 0 yields INVOP (EmptyContainer) instead of
the validator's INVPTR. -/
theorem C8_theorem :
    vec_push_h (none : Option (Vec Nat)) 0 true = none ∧
    vec_last_h (none : Option (Vec Nat)) = none ∧
    badV.magic ≠ VEC_MAGIC ∧
    vec_pop_h (some badV) true true = (VecErr.INVOP, some badV, none) ∧
    VecErr.INVOP ≠ VecErr.INVPTR := by
  decide

/-- C9 (amended): for every valid container, when push(v) succeeds (it can
fail with CapacityExceeded at the MAX_CAPACITY ceiling, or with
OutOfMemory), an immediate pop with succeeding allocation also succeeds,
writes the pushed value into the out parameter, and restores the length to
its value before the push. -/
theorem C9_theorem (v v1 : Vec α) (x : α) (hv : Valid v)
    (h : vec_push v x true = (VecErr.OK, v1)) :
    (vec_pop v1 true true).1 = VecErr.OK ∧
    (vec_pop v1 true true).2.2 = some x ∧
    (vec_pop v1 true true).2.1.len = v.len :=
  push_pop_roundtrip v v1 x hv h

/-- C9 counterexample: on a valid container that is full at the
MAX_CAPACITY ceiling, push does not succeed — it fails with INVOP
(CapacityExceeded) — refuting the claim that push followed by pop succeeds
for every valid container. -/
theorem C9_counterexample :
    Valid vMax ∧ (vec_push vMax (0 : Nat) true).1 = VecErr.INVOP := by
  constructor
  · refine ⟨rfl, le_refl _, by decide, le_refl _, ?_⟩
    simp [vMax, List.length_replicate]
  · rfl

/-- C9 witness: the amended round-trip applied to pushing 42 onto a fresh
container. -/
theorem C9_witness :
    Valid fresh16 ∧ vec_push fresh16 42 true = (VecErr.OK, push42) ∧
    ((vec_pop push42 true true).1 = VecErr.OK ∧
      (vec_pop push42 true true).2.2 = some 42 ∧
      (vec_pop push42 true true).2.1.len = fresh16.len) :=
  ⟨by decide, by decide, C9_theorem fresh16 push42 42 (by decide) (by decide)⟩

/-- C10: a successful destroy clears the handle slot (sets it to NULL), so
a second destroy on the same slot is detected and rejected with the
NULLPTR error status, not silently accepted and not undefined behavior. -/
theorem C10_theorem (slot s1 : Option (Vec α))
    (h : vec_destroy slot = (VecErr.OK, s1)) :
    s1 = none ∧ vec_destroy s1 = (VecErr.NULLPTR, none) ∧
    VecErr.NULLPTR ≠ VecErr.OK := by
  match slot with
  | none =>
    simp [vec_destroy] at h
  | some v =>
    simp only [vec_destroy] at h
    split at h
    · injection h with h1 h2
      rename_i hval
      exact absurd h1 hval
    · injection h with h1 h2
      subst h2
      exact ⟨rfl, rfl, by simp⟩

/-- C10 witness: destroy of a fresh live container clears the slot and the
second destroy is rejected with NULLPTR. -/
theorem C10_witness :
    vec_destroy (some fresh16) = (VecErr.OK, none) ∧
    ((none : Option (Vec Nat)) = none ∧
      vec_destroy (none : Option (Vec Nat)) = (VecErr.NULLPTR, none) ∧
      VecErr.NULLPTR ≠ VecErr.OK) :=
  ⟨by decide, C10_theorem (some fresh16) none (by decide)⟩

end VecSpec
